import Mathlib

/-!
# ChatApp browser client (`static/js/chat_client.js`)

A shallow embedding of the client script: the shared transport `makeRequest`, the
rendering helper `displayResponse`, the seven operation bindings and the polling
callback, followed by theorems about them.

The script is glue around browser built-ins.  Deterministic built-ins that the script
relies on (truthiness, property reads, `ToString`, `JSON.stringify` on plain data,
`parseInt` with its rounding to a double) are written out following ECMA-262.  What
the network and the payload serialiser do, including any value they throw, is taken
from a `Platform` record, so that every theorem holds for every behaviour of the
remote service.
-/

namespace ChatClient

/-! ## JavaScript values -/

/-- ECMAScript Number values as far as the script can observe them.  `int i` is the
Number nearest to the mathematical integer `i` (the double `i` rounds to; `-0` and
`+0` are not told apart, the script never divides by them), `frac text` is any other
finite Number, named by the text `Number::toString` prints for it. -/
inductive JSNum where
  | nan
  | inf (neg : Bool)
  | int (i : Int)
  | frac (text : String)
deriving DecidableEq, Repr

/-- Plain JavaScript data: the values `JSON.parse` can produce, the object literals
the script builds, and `undefined` (the result of reading a missing property).
An object is its own enumerable properties in enumeration order. -/
inductive JSVal where
  | undefined
  | null
  | bool (b : Bool)
  | num (n : JSNum)
  | str (s : String)
  | arr (items : List JSVal)
  | obj (props : List (String × JSVal))

/-- An `Error` object: its `name` and its `message` text.  What the engine throws
for an illegal operation (a `TypeError`) and what `JSON.parse` throws (a
`SyntaxError`) are `Error` objects. -/
structure JSError where
  name : String
  message : String
deriving DecidableEq, Repr

/-- The `TypeError` the engine throws for an illegal operation on a value. -/
def typeError (message : String) : JSError := ⟨"TypeError", message⟩

/-- The number of binary digits of `n` (the first argument bounds the recursion). -/
def bitLength : Nat → Nat → Nat
  | 0, _ => 0
  | fuel + 1, n => if n = 0 then 0 else bitLength fuel (n / 2) + 1

/-- The double nearest to the natural number `n`, as the integer it equals:
numbers below `2^53` are doubles, larger ones are rounded to 53 significant bits,
ties to even; `none` when the result overflows to `Infinity` (from `2^1024`). -/
def roundToDouble (n : Nat) : Option Nat :=
  if n < 2 ^ 53 then some n
  else
    let e := bitLength n n - 53
    let q := n / 2 ^ e
    let r := n % 2 ^ e
    let half := 2 ^ (e - 1)
    let q1 := if half < r || (r == half && q % 2 == 1) then q + 1 else q
    if 179769313486231590772930519078902473361797697894230657273430081157732675805500963132708477322407536021120113879871393357658789768814416622492847430639474124377767893424865485276302219601246094119453082952085005768838150682342462881473913110540827237163350510684586298239947245938479716304835356329624224137216 ≤ q1 * 2 ^ e
    then none
    else some (q1 * 2 ^ e)

/-- The number of decimal digits of `n`. -/
def decimalLength (n : Nat) : Nat := (Nat.toDigits 10 n).length

/-- The pairs `(s, n)` of ECMA-262 `Number::toString` for a double `v` and a digit
count `k`: `s` has `k` digits and `s * 10^(n - k)` rounds to `v`. -/
def digitCandidates (v k : Nat) : List (Nat × Nat) :=
  [decimalLength v, decimalLength v + 1].flatMap fun n =>
    if n < k then []
    else
      [v / 10 ^ (n - k), v / 10 ^ (n - k) + 1].filterMap fun s =>
        if 10 ^ (k - 1) ≤ s && s < 10 ^ k && roundToDouble (s * 10 ^ (n - k)) == some v
        then some (s, n)
        else none

/-- The distance between two natural numbers. -/
def gapBetween (a b : Nat) : Nat := if a ≤ b then b - a else a - b

/-- Of two candidates for the same `k`, the one closer to `v`, the even `s` on a tie. -/
def closerCandidate (v k : Nat) (a b : Nat × Nat) : Nat × Nat :=
  if gapBetween (b.1 * 10 ^ (b.2 - k)) v < gapBetween (a.1 * 10 ^ (a.2 - k)) v
      || (gapBetween (b.1 * 10 ^ (b.2 - k)) v == gapBetween (a.1 * 10 ^ (a.2 - k)) v
          && b.1 % 2 == 0 && a.1 % 2 == 1)
  then b else a

/-- The triple `(k, s, n)` with the least `k` from the given one on. -/
def shortestDigits (v : Nat) : Nat → Nat → Nat × Nat × Nat
  | 0, _ => (decimalLength v, v, decimalLength v)
  | fuel + 1, k =>
    match digitCandidates v k with
    | [] => shortestDigits v fuel (k + 1)
    | c :: cs => (k, cs.foldl (closerCandidate v k) c)

/-- `Number::toString` of a double that is a natural number: its decimal digits
below `2^53`; above, the shortest digits that round back to it, followed by zeros up
to `10^21` and in exponent form from there on. -/
def natToString (v : Nat) : String :=
  if v < 2 ^ 53 then toString v
  else
    match shortestDigits v 17 1 with
    | (k, s, n) =>
      if n ≤ 21 then toString s ++ String.mk (List.replicate (n - k) '0')
      else
        (if k = 1 then toString s else (toString s).take 1 ++ "." ++ (toString s).drop 1)
          ++ "e+" ++ toString (n - 1)

/-- The Number a sign and a natural number round to. -/
def JSNum.ofMathInt (neg : Bool) (n : Nat) : JSNum :=
  match roundToDouble n with
  | none => .inf neg
  | some v => .int (if neg then -(v : Int) else (v : Int))

/-- `Number::toString` (radix 10). -/
def JSNum.toStr : JSNum → String
  | .nan => "NaN"
  | .inf false => "Infinity"
  | .inf true => "-Infinity"
  | .int i =>
    match roundToDouble i.natAbs with
    | none => if i < 0 then "-Infinity" else "Infinity"
    | some v => (if i < 0 then "-" else "") ++ natToString v
  | .frac text => text

/-- Whether a Number is neither `NaN` nor an infinity. -/
def JSNum.isFinite : JSNum → Bool
  | .nan => false
  | .inf _ => false
  | .int i => (roundToDouble i.natAbs).isSome
  | .frac _ => true

/-- `ToBoolean`: the falsy values are `undefined`, `null`, `false`, `0`, `NaN`, `""`. -/
def JSVal.truthy : JSVal → Bool
  | .undefined => false
  | .null => false
  | .bool b => b
  | .num .nan => false
  | .num (.int i) => i != 0
  | .num _ => true
  | .str s => s != ""
  | .arr _ => true
  | .obj _ => true

/-- Whether the value is `null` or `undefined`. -/
def JSVal.isNullish : JSVal → Bool
  | .undefined => true
  | .null => true
  | _ => false

/-- Property read `v.key` for a data property `key` that no built-in prototype
defines (every key the script reads: `error`, `peers`, `messages`, `peer_id`, `ip`,
`port`, `from`, `message`, `timestamp`).  Reading from `null` or `undefined` throws a
`TypeError`; an object yields its own property or `undefined`; primitives and arrays
yield `undefined`. -/
def JSVal.get (v : JSVal) (key : String) : Except JSError JSVal :=
  match v with
  | .undefined => .error (typeError "Cannot read properties of undefined")
  | .null => .error (typeError "Cannot read properties of null")
  | .obj props => .ok ((props.lookup key).getD .undefined)
  | _ => .ok .undefined

/-- A thrown value, as the `catch (error)` clause of `makeRequest` binds it: an
`Error` object, or any other value (`throw null`, `throw "text"`, a plain object);
the platform and a `toJSON` hook of a payload may throw either. -/
inductive Thrown where
  | error (e : JSError)
  | value (v : JSVal)

/-- The property read `error.message` on a thrown value: the message text of an
`Error` object, and a plain property read otherwise (it throws a `TypeError` on
`null` and `undefined` and yields `undefined` on a primitive). -/
def Thrown.message : Thrown → Except JSError JSVal
  | .error e => .ok (.str e.message)
  | .value v => v.get "message"

mutual
/-- `ToString` as applied by a template literal.  Arrays print through
`Array.prototype.join`; a plain object prints as `[object Object]` unless it has an
own (hence non-callable) `toString` property, in which case `OrdinaryToPrimitive`
finds no usable method and throws a `TypeError`. -/
def JSVal.toStr : JSVal → Except JSError String
  | .undefined => .ok "undefined"
  | .null => .ok "null"
  | .bool b => .ok (if b then "true" else "false")
  | .num n => .ok n.toStr
  | .str s => .ok s
  | .arr items =>
    match joinParts items with
    | .ok parts => .ok (",".intercalate parts)
    | .error e => .error e
  | .obj props =>
    if (props.lookup "toString").isSome then
      .error (typeError "Cannot convert object to primitive value")
    else .ok "[object Object]"
/-- The element texts `Array.prototype.join` concatenates: `""` for `null` and
`undefined`, `ToString` of the element otherwise. -/
def joinParts : List JSVal → Except JSError (List String)
  | [] => .ok []
  | x :: xs =>
    match (if x.isNullish then Except.ok "" else JSVal.toStr x) with
    | .error e => .error e
    | .ok s =>
      match joinParts xs with
      | .ok rest => .ok (s :: rest)
      | .error e => .error e
end

/-! ## `JSON.stringify` on plain data -/

namespace JSON

/-- One character of `QuoteJSONString`. -/
def quoteChar (c : Char) : String :=
  if c.toNat = 34 then "\\\""
  else if c.toNat = 92 then "\\\\"
  else if c.toNat = 8 then "\\b"
  else if c.toNat = 12 then "\\f"
  else if c.toNat = 10 then "\\n"
  else if c.toNat = 13 then "\\r"
  else if c.toNat = 9 then "\\t"
  else if c.toNat < 32 then
    "\\u00" ++ String.singleton (Nat.digitChar (c.toNat / 16))
      ++ String.singleton (Nat.digitChar (c.toNat % 16))
  else String.singleton c

/-- `QuoteJSONString`: the text between double quotes, with escapes. -/
def quote (s : String) : String :=
  "\"" ++ String.join (s.toList.map quoteChar) ++ "\""

mutual
/-- `SerializeJSONProperty` for plain data with indentation unit `gap` at current
indentation `indent`; `none` stands for `undefined`. -/
def serialize (gap indent : String) : JSVal → Option String
  | .undefined => none
  | .null => some "null"
  | .bool b => some (if b then "true" else "false")
  | .num n => some (if n.isFinite then n.toStr else "null")
  | .str s => some (quote s)
  | .arr items =>
    match serializeItems gap (indent ++ gap) items with
    | [] => some "[]"
    | parts =>
      if gap = "" then some ("[" ++ ",".intercalate parts ++ "]")
      else some ("[\n" ++ (indent ++ gap) ++ (",\n" ++ (indent ++ gap)).intercalate parts
        ++ "\n" ++ indent ++ "]")
  | .obj props =>
    match serializeProps gap (indent ++ gap) props with
    | [] => some "\x7b\x7d"
    | parts =>
      if gap = "" then some ("\x7b" ++ ",".intercalate parts ++ "\x7d")
      else some ("\x7b\n" ++ (indent ++ gap) ++ (",\n" ++ (indent ++ gap)).intercalate parts
        ++ "\n" ++ indent ++ "\x7d")
/-- `SerializeJSONArray`, the element texts: `undefined` prints as `null`. -/
def serializeItems (gap indent : String) : List JSVal → List String
  | [] => []
  | x :: xs => (serialize gap indent x).getD "null" :: serializeItems gap indent xs
/-- `SerializeJSONObject`, the member texts: `undefined` members are left out. -/
def serializeProps (gap indent : String) : List (String × JSVal) → List String
  | [] => []
  | (k, v) :: ps =>
    match serialize gap indent v with
    | none => serializeProps gap indent ps
    | some s =>
      (quote k ++ ":" ++ (if gap = "" then "" else " ") ++ s) :: serializeProps gap indent ps
end

/-- `JSON.stringify(value)`. -/
def stringify (value : JSVal) : Option String := serialize "" "" value

/-- `JSON.stringify(value, null, 2)`. -/
def stringifyIndent2 (value : JSVal) : Option String := serialize "  " "" value

end JSON

/-! ## `parseInt` -/

/-- `StrWhiteSpaceChar`: white space and line terminators skipped by `parseInt`. -/
def isStrWhiteSpace (c : Char) : Bool :=
  c.toNat ∈ [9, 10, 11, 12, 13, 32, 160, 5760, 8232, 8233, 8239, 8287, 12288, 65279]
    || (8192 ≤ c.toNat && c.toNat ≤ 8202)

/-- The value of a character as a digit in the given radix, if it is one. -/
def digitValue (radix : Nat) (c : Char) : Option Nat :=
  let v :=
    if 48 ≤ c.toNat && c.toNat ≤ 57 then c.toNat - 48
    else if 97 ≤ c.toNat && c.toNat ≤ 122 then c.toNat - 87
    else if 65 ≤ c.toNat && c.toNat ≤ 90 then c.toNat - 55
    else radix
  if v < radix then some v else none

/-- The longest leading run of radix digits, as digit values. -/
def takeDigits (radix : Nat) : List Char → List Nat
  | [] => []
  | c :: cs =>
    match digitValue radix c with
    | some d => d :: takeDigits radix cs
    | none => []

/-- `parseInt(string)` with no radix argument (ECMA-262 19.2.5): skip leading white
space, read an optional sign, read an optional `0x` / `0X` which selects radix 16,
then read the longest run of digits; `NaN` when that run is empty, otherwise the
Number nearest to the integer the digits denote (possibly an infinity). -/
def parseInt (s : String) : JSNum :=
  let cs := s.toList.dropWhile isStrWhiteSpace
  let neg := cs.head? == some '-'
  let cs := if cs.head? == some '-' || cs.head? == some '+' then cs.tail else cs
  let hex := cs.take 2 == ['0', 'x'] || cs.take 2 == ['0', 'X']
  let radix := if hex then 16 else 10
  let cs := if hex then cs.drop 2 else cs
  match takeDigits radix cs with
  | [] => .nan
  | ds =>
    let mathInt : Nat := ds.foldl (fun acc d => acc * radix + d) 0
    JSNum.ofMathInt neg mathInt

/-! ## The browser around the script -/

/-- The request handed to `fetch`: the URL and the `options` object. -/
structure Request where
  url : String
  method : String
  headers : List (String × String)
  body : Option String
deriving DecidableEq, Repr

/-- What `await fetch(...)` resolves to: the HTTP status and the outcome of
`await response.text()`. -/
structure Response where
  status : Nat
  text : Except Thrown String

/-- Everything outside the script that decides a call: `stringify` is
`JSON.stringify` on the payload of a request (the text, or the error it throws; a
caller of `makeRequest` may pass a cyclic object or one with a `toJSON` hook, which
`JSVal` does not describe, so the outcome is left to the platform),
`fetch` is the network (a response of any status, or the error the promise rejects
with), `parse` is `JSON.parse` (the value, or the `SyntaxError` it throws). -/
structure Platform where
  stringify : JSVal → Except Thrown String
  fetch : Request → Except Thrown Response
  parse : String → Except JSError JSVal

/-- A page element: the value of a form field, `style.display`, `className`,
`textContent` and `innerHTML`.  The script writes `textContent` only on response
regions and `innerHTML` only on the two list regions, so the two are kept as
separate fields; `innerHTML` holds the markup as assigned. -/
structure Element where
  value : String
  display : String
  className : String
  textContent : String
  innerHTML : String
deriving DecidableEq, Repr

/-- One invocation of `displayResponse`: the target id, the `data` argument and the
`isError` argument (after the default has been applied). -/
structure SinkCall where
  elementId : String
  data : JSVal
  isError : JSVal

/-- One invocation of `makeRequest`: its three arguments. -/
structure RequestCall where
  endpoint : String
  method : String
  data : JSVal

/-- The state a call runs in: the document (`getElementById`), and three traces, the
invocations of `makeRequest`, the requests handed to `fetch` and the invocations of
`displayResponse`, oldest first. -/
structure World where
  dom : String → Option Element
  requested : List RequestCall
  fetched : List Request
  sinkCalls : List SinkCall

/-- A computation of the script: it ends normally with a value or throws, and leaves
a world behind either way. -/
def Eff (α : Type) : Type := World → Except JSError α × World

/-- Normal completion. -/
def Eff.pure {α : Type} (a : α) : Eff α := fun w => (.ok a, w)

/-- Sequencing: a throw in the first part skips the second. -/
def Eff.bind {α β : Type} (m : Eff α) (f : α → Eff β) : Eff β := fun w =>
  match m w with
  | (.ok a, w1) => f a w1
  | (.error e, w1) => (.error e, w1)

instance : Monad Eff where
  pure := Eff.pure
  bind := Eff.bind

/-- A step that may throw and does not touch the world. -/
def Eff.ofExcept {α : Type} (r : Except JSError α) : Eff α := fun w => (r, w)

/-- Reading `document.getElementById(id).value`; a missing element is `null`. -/
def readValue (id : String) : Eff String := fun w =>
  match w.dom id with
  | none => (.error (typeError "Cannot read properties of null"), w)
  | some element => (.ok element.value, w)

/-- Reading `document.getElementById(id).innerHTML`. -/
def readInnerHTML (id : String) : Eff String := fun w =>
  match w.dom id with
  | none => (.error (typeError "Cannot read properties of null"), w)
  | some element => (.ok element.innerHTML, w)

/-- Assigning `document.getElementById(id).innerHTML = markup`. -/
def writeInnerHTML (id markup : String) : Eff Unit := fun w =>
  match w.dom id with
  | none => (.error (typeError "Cannot set properties of null"), w)
  | some element =>
    (.ok (), { w with dom := fun j => if j = id then some { element with innerHTML := markup }
                                       else w.dom j })

/-! ## The script -/

/-- Line 1: `const BASE_URL`. -/
def BASE_URL : String := "http://localhost:8001"

/-- Lines 5-14 and the URL of line 16: the `options` object with method and
content-type header, a `body` attached when `data && method !== "GET"`, addressed to
`BASE_URL` followed by the endpoint.  Serialising the payload may throw. -/
def requestOptions (P : Platform) (endpoint method : String) (data : JSVal) :
    Except Thrown Request :=
  let options : Request :=
    { url := BASE_URL ++ endpoint
      method := method
      headers := [("Content-Type", "application/json")]
      body := none }
  if data.truthy && method != "GET" then
    match P.stringify data with
    | .ok text => .ok { options with body := some text }
    | .error e => .error e
  else .ok options

/-- Lines 5-17 of `makeRequest`, the body of the outer `try` up to the response
text: build the request, await `fetch` (the request is recorded), await
`response.text()`.  Each of the three steps may throw any value. -/
def transmit (P : Platform) (endpoint method : String) (data : JSVal) (w : World) :
    Except Thrown String × World :=
  match requestOptions P endpoint method data with
  | .error thrown => (.error thrown, w)
  | .ok options =>
    match P.fetch options with
    | .error thrown => (.error thrown, { w with fetched := w.fetched ++ [options] })
    | .ok response => (response.text, { w with fetched := w.fetched ++ [options] })

/-- Lines 3-27: `makeRequest(endpoint, method, data)` (the call is recorded).  The
inner `try` returns `JSON.parse(text)` or, when that throws, the wrapper with `raw`;
the outer `catch (error)` returns the wrapper with `error` set to `error.message`,
and reading `error.message` can itself throw. -/
def makeRequest (P : Platform) (endpoint method : String) (data : JSVal) : Eff JSVal := fun w =>
  match transmit P endpoint method data
      { w with requested := w.requested ++ [RequestCall.mk endpoint method data] } with
  | (.ok text, w1) =>
    match P.parse text with
    | .ok value => (.ok value, w1)
    | .error _ => (.ok (.obj [("raw", .str text)]), w1)
  | (.error error, w1) =>
    match error.message with
    | .ok message => (.ok (.obj [("error", message)]), w1)
    | .error e => (.error e, w1)

/-- Lines 29-34: `displayResponse(elementId, data, isError = false)`.  The default
replaces an `undefined` third argument. -/
def displayResponse (elementId : String) (data isError : JSVal) : Eff Unit := fun w =>
  let isError := match isError with
    | .undefined => JSVal.bool false
    | given => given
  let w := { w with sinkCalls := w.sinkCalls ++ [SinkCall.mk elementId data isError] }
  match w.dom elementId with
  | none => (.error (typeError "Cannot read properties of null"), w)
  | some element =>
    let element := { element with display := "block" }
    let element :=
      { element with className := "response" ++ (if isError.truthy then " error" else "") }
    let element := { element with textContent := (JSON.stringifyIndent2 data).getD "" }
    (.ok (), { w with dom := fun j => if j = elementId then some element else w.dom j })

/-- The call `target.forEach(callback)`: arrays run the callback on each item in
order; nothing else the script can hold has a callable `forEach`. -/
def forEach (target : JSVal) (callback : JSVal → Eff Unit) : Eff Unit :=
  match target with
  | .arr items => items.foldr (fun item rest => Eff.bind (callback item) (fun _ => rest)) (pure ())
  | .undefined => Eff.ofExcept (.error (typeError "Cannot read properties of undefined"))
  | .null => Eff.ofExcept (.error (typeError "Cannot read properties of null"))
  | _ => Eff.ofExcept (.error (typeError "forEach is not a function"))

/-- Lines 36-45. -/
def registerPeer (P : Platform) : Eff Unit := do
  let peer_id ← readValue "peerId"
  let ip ← readValue "peerIp"
  let port := parseInt (← readValue "peerPort")
  let data := JSVal.obj [("peer_id", .str peer_id), ("ip", .str ip), ("port", .num port)]
  let result ← makeRequest P "/submit-info" "POST" data
  displayResponse "registerResponse" result (← Eff.ofExcept (result.get "error"))

/-- Lines 55-60: the markup appended for one peer. -/
def peerItem (peer : JSVal) : Except JSError String := do
  let peer_id ← (← peer.get "peer_id").toStr
  let ip ← (← peer.get "ip").toStr
  let port ← (← peer.get "port").toStr
  pure ("\n                  <div class=\"peer-item\">\n                      <strong>"
    ++ peer_id ++ "</strong> - " ++ ip ++ ":" ++ port
    ++ "\n                      <span class=\"status connected\">Online</span>"
    ++ "\n                  </div>\n              ")

/-- Lines 47-63. -/
def getPeerList (P : Platform) : Eff Unit := do
  let result ← makeRequest P "/get-list" "GET" .null
  displayResponse "registerResponse" result (← Eff.ofExcept (result.get "error"))
  if (← Eff.ofExcept (result.get "peers")).truthy then
    writeInnerHTML "peerList" "<h3>Active Peers:</h3>"
    forEach (← Eff.ofExcept (result.get "peers")) fun peer => do
      let old ← readInnerHTML "peerList"
      let item ← Eff.ofExcept (peerItem peer)
      writeInnerHTML "peerList" (old ++ item)

/-- Lines 65-73. -/
def joinChannel (P : Platform) : Eff Unit := do
  let peer_id ← readValue "channelPeerId"
  let channel ← readValue "channelName"
  let data := JSVal.obj [("peer_id", .str peer_id), ("channel", .str channel)]
  let result ← makeRequest P "/add-list" "POST" data
  displayResponse "channelResponse" result (← Eff.ofExcept (result.get "error"))

/-- Lines 75-83. -/
def connectPeer (P : Platform) : Eff Unit := do
  let from_peer ← readValue "fromPeer"
  let to_peer ← readValue "toPeer"
  let data := JSVal.obj [("from_peer", .str from_peer), ("to_peer", .str to_peer)]
  let result ← makeRequest P "/connect-peer" "POST" data
  displayResponse "connectResponse" result (← Eff.ofExcept (result.get "error"))

/-- Lines 85-94. -/
def broadcastMessage (P : Platform) : Eff Unit := do
  let peer_id ← readValue "broadcastPeerId"
  let channel ← readValue "broadcastChannel"
  let message ← readValue "broadcastMessage"
  let data := JSVal.obj
    [("peer_id", .str peer_id), ("channel", .str channel), ("message", .str message)]
  let result ← makeRequest P "/broadcast-peer" "POST" data
  displayResponse "broadcastResponse" result (← Eff.ofExcept (result.get "error"))

/-- Lines 108-113: the markup appended for one message. -/
def messageItem (msg : JSVal) : Except JSError String := do
  let sender ← (← msg.get "from").toStr
  let message ← (← msg.get "message").toStr
  let timestamp ← (← msg.get "timestamp").toStr
  pure ("\n                  <div class=\"message-item\">\n                      <strong>"
    ++ sender ++ "</strong>: " ++ message
    ++ "\n                      <br><small>" ++ timestamp ++ "</small>"
    ++ "\n                  </div>\n              ")

/-- Lines 96-116. -/
def getMessages (P : Platform) : Eff Unit := do
  let channel ← readValue "broadcastChannel"
  let data := JSVal.obj [("channel", .str channel)]
  let result ← makeRequest P "/get-messages" "GET" data
  displayResponse "broadcastResponse" result (← Eff.ofExcept (result.get "error"))
  if (← Eff.ofExcept (result.get "messages")).truthy then
    writeInnerHTML "messageList" "<h3>Messages:</h3>"
    forEach (← Eff.ofExcept (result.get "messages")) fun msg => do
      let old ← readInnerHTML "messageList"
      let item ← Eff.ofExcept (messageItem msg)
      writeInnerHTML "messageList" (old ++ item)

/-- Lines 118-127. -/
def sendDirectMessage (P : Platform) : Eff Unit := do
  let from_peer ← readValue "dmFromPeer"
  let to_peer ← readValue "dmToPeer"
  let message ← readValue "dmMessage"
  let data := JSVal.obj
    [("from_peer", .str from_peer), ("to_peer", .str to_peer), ("message", .str message)]
  let result ← makeRequest P "/send-peer" "POST" data
  displayResponse "dmResponse" result (← Eff.ofExcept (result.get "error"))

/-- The seven operation bindings. -/
inductive Operation where
  | registerPeer
  | getPeerList
  | joinChannel
  | connectPeer
  | broadcastMessage
  | getMessages
  | sendDirectMessage
deriving DecidableEq, Repr

/-- Running a binding from its call to the completion of its promise. -/
def Operation.run (P : Platform) : Operation → Eff Unit
  | .registerPeer => ChatClient.registerPeer P
  | .getPeerList => ChatClient.getPeerList P
  | .joinChannel => ChatClient.joinChannel P
  | .connectPeer => ChatClient.connectPeer P
  | .broadcastMessage => ChatClient.broadcastMessage P
  | .getMessages => ChatClient.getMessages P
  | .sendDirectMessage => ChatClient.sendDirectMessage P

/-- The response region a binding passes to `displayResponse`. -/
def Operation.sink : Operation → String
  | .registerPeer => "registerResponse"
  | .getPeerList => "registerResponse"
  | .joinChannel => "channelResponse"
  | .connectPeer => "connectResponse"
  | .broadcastMessage => "broadcastResponse"
  | .getMessages => "broadcastResponse"
  | .sendDirectMessage => "dmResponse"

/-- Lines 130-134: the callback given to `setInterval`, as the list of operations it
starts on one tick (the call is not awaited).  Reading `innerHTML` of a missing
`peerList` element throws. -/
def pollingCallback (w : World) : Except JSError (List Operation) :=
  match w.dom "peerList" with
  | none => .error (typeError "Cannot read properties of null")
  | some peerList => if peerList.innerHTML != "" then .ok [.getPeerList] else .ok []

/-- One tick of the timer: the callback, then the operations it started run to
completion; a callback that throws leaves the page as it was. -/
def tick (P : Platform) (w : World) : World :=
  match pollingCallback w with
  | .ok started => started.foldl (fun w1 op => (op.run P w1).2) w
  | .error _ => w

/-- The element ids the script looks up. -/
def pageIds : List String :=
  ["peerId", "peerIp", "peerPort", "registerResponse", "peerList", "channelPeerId",
   "channelName", "channelResponse", "fromPeer", "toPeer", "connectResponse",
   "broadcastPeerId", "broadcastChannel", "broadcastMessage", "broadcastResponse",
   "messageList", "dmFromPeer", "dmToPeer", "dmMessage", "dmResponse"]

/-- A page that has every element the script looks up. -/
def World.WellFormed (w : World) : Prop := ∀ id ∈ pageIds, (w.dom id).isSome = true

/-! ## Concrete pages and platforms used to evaluate the script -/

/-- An element with the given form value and nothing rendered. -/
def field (value : String) : Element := ⟨value, "none", "response", "", ""⟩

/-- A page with every element of the script, the form filled in as in the scenarios
(peer `p1` at `127.0.0.1:5000`, channel `general`) and nothing rendered yet. -/
def samplePage : World where
  dom := fun id =>
    if id = "peerId" then some (field "p1")
    else if id = "peerIp" then some (field "127.0.0.1")
    else if id = "peerPort" then some (field "5000")
    else if id = "broadcastChannel" then some (field "general")
    else if id ∈ pageIds then some (field "")
    else none
  requested := []
  fetched := []
  sinkCalls := []

/-- A platform with the standard `JSON.stringify`, whose network answers every
request with the same status and body text, decoded by `JSON.parse` to `decoded`
(`none`: the text is not JSON). -/
def respondingPlatform (status : Nat) (body : String) (decoded : Option JSVal) : Platform where
  stringify := fun v => .ok ((JSON.stringify v).getD "undefined")
  fetch := fun _ => .ok ⟨status, .ok body⟩
  parse := fun t =>
    match decoded with
    | some v => if t = body then .ok v else .error ⟨"SyntaxError", "Unexpected token"⟩
    | none => .error ⟨"SyntaxError", "Unexpected token"⟩

/-- A platform with the standard `JSON.stringify` whose network is unreachable:
every `fetch` rejects with the given error. -/
def unreachablePlatform (e : JSError) : Platform where
  stringify := fun v => .ok ((JSON.stringify v).getD "undefined")
  fetch := fun _ => .error (.error e)
  parse := fun _ => .error ⟨"SyntaxError", "Unexpected token"⟩

/-! ## Vocabulary of the statements -/

/-- The `isError` argument a binding passes for a result: `result.error`, with the
default `false` in place of `undefined`. -/
def errorFlag (result : JSVal) : JSVal :=
  match result.get "error" with
  | .ok .undefined => .bool false
  | .ok flag => flag
  | .error _ => .bool false

/-- The value carries a field `key` whose value is truthy. -/
def JSVal.hasTruthyField (key : String) : JSVal → Bool
  | .obj props =>
    match props.lookup key with
    | some v => v.truthy
    | none => false
  | _ => false

/-- The element as `displayResponse` leaves it for the given arguments. -/
def shown (element : Element) (data isError : JSVal) : Element :=
  { element with
    display := "block"
    className := "response" ++ (if isError.truthy then " error" else "")
    textContent := (JSON.stringifyIndent2 data).getD "" }

/-- A list region after `innerHTML` was set. -/
def withInnerHTML (w : World) (id markup : String) (element : Element) : World :=
  { w with dom := fun j => if j = id then some { element with innerHTML := markup } else w.dom j }

/-- The callback of the secondary pass: the statement that appends the markup of
one item to `innerHTML` of the list region. -/
def appendItem (listId : String) (template : JSVal → Except JSError String) (item : JSVal) :
    Eff Unit := do
  let old ← readInnerHTML listId
  let markup ← Eff.ofExcept (template item)
  writeInnerHTML listId (old ++ markup)

/-- The secondary rendering pass of `getPeerList` (lines 51-62) and `getMessages`
(lines 104-115), with the field, the list region, the heading and the item markup
as parameters. -/
def renderList (key listId heading : String) (template : JSVal → Except JSError String)
    (result : JSVal) : Eff Unit := do
  if (← Eff.ofExcept (result.get key)).truthy then
    writeInnerHTML listId heading
    forEach (← Eff.ofExcept (result.get key)) (appendItem listId template)

/-- The world after `displayResponse(sink, result, result.error)` found `element`. -/
def afterDisplay (w : World) (sink : String) (result : JSVal) (element : Element) : World :=
  { dom := fun j => if j = sink then some (shown element result (errorFlag result)) else w.dom j
    requested := w.requested
    fetched := w.fetched
    sinkCalls := w.sinkCalls ++ [SinkCall.mk sink result (errorFlag result)] }

/-- The part of a binding after `await makeRequest(...)`: the dispatch to the sink,
then the secondary pass. -/
def finish (sink : String) (secondary : JSVal → Eff Unit) (result : JSVal) : Eff Unit := do
  displayResponse sink result (← Eff.ofExcept (result.get "error"))
  secondary result

/-- The secondary pass of a binding (none for five of them). -/
def Operation.secondary : Operation → JSVal → Eff Unit
  | .getPeerList => renderList "peers" "peerList" "<h3>Active Peers:</h3>" peerItem
  | .getMessages => renderList "messages" "messageList" "<h3>Messages:</h3>" messageItem
  | _ => fun _ => pure ()

/-- An entry of a rendered list that the item markup can be built from: not `null`
or `undefined`, and each of the named fields converts to text. -/
def entryOk (fields : List String) (entry : JSVal) : Bool :=
  !entry.isNullish && fields.all fun f =>
    match entry.get f with
    | .ok v => v.toStr.toBool
    | .error _ => false

/-- The field `key` of a result is falsy (or missing), or an array of entries the
item markup can be built from. -/
def listOk (key : String) (fields : List String) (result : JSVal) : Bool :=
  match result.get key with
  | .ok (.arr items) => items.all (entryOk fields)
  | .ok v => !v.truthy
  | .error _ => false

/-- The results a binding renders without raising. -/
def Operation.completesOn (op : Operation) (result : JSVal) : Bool :=
  !result.isNullish &&
    match op with
    | .getPeerList => listOk "peers" ["peer_id", "ip", "port"] result
    | .getMessages => listOk "messages" ["from", "message", "timestamp"] result
    | _ => true

/-- The transport does not fail and returns the body text `t`, whatever the request. -/
def Platform.Delivers (P : Platform) (t : String) : Prop :=
  ∀ (endpoint method : String) (data : JSVal) (w : World),
    (transmit P endpoint method data w).1 = .ok t

/-- The transport fails with the `Error` object `e`, whatever the request. -/
def Platform.FailsWith (P : Platform) (e : JSError) : Prop :=
  ∀ (endpoint method : String) (data : JSVal) (w : World),
    (transmit P endpoint method data w).1 = .error (.error e)

/-- A platform with the standard `JSON.parse` outcome "not JSON" and a reachable
network, whose payload serialiser throws the given value (a `toJSON` hook of the
payload that throws). -/
def throwingPlatform (thrown : Thrown) : Platform where
  stringify := fun _ => .error thrown
  fetch := fun _ => .ok ⟨200, .ok "ok"⟩
  parse := fun _ => .error ⟨"SyntaxError", "Unexpected token"⟩

/-- The sample page with the given text in the port field. -/
def pageWithPort (port : String) : World :=
  { samplePage with
    dom := fun id => if id = "peerPort" then some (field port) else samplePage.dom id }

/-- The sample page after a peer list was rendered: `peerList` holds the markup. -/
def pageWithList (markup : String) : World :=
  { samplePage with
    dom := fun id =>
      if id = "peerList" then some { field "" with innerHTML := markup } else samplePage.dom id }

/-- A decimal digit character. -/
def isDecimalDigit (c : Char) : Bool := 48 ≤ c.toNat && c.toNat ≤ 57

/-- The number a run of decimal digits denotes. -/
def decimalValue (cs : List Char) : Nat := cs.foldl (fun acc c => acc * 10 + (c.toNat - 48)) 0

/-- The mapping `registerPeer` sends for the three field texts: `peer_id` and `ip` as
strings, `port` as the Number `parseInt` makes of the port text, in that order. -/
def registerPayload (peer_id ip port : String) : JSVal :=
  .obj [("peer_id", .str peer_id), ("ip", .str ip), ("port", .num (parseInt port))]

/-- Scenario B, the body text the service answers to `/get-list`. -/
def scenarioBText : String :=
  "\x7b\"peers\":[\x7b\"peer_id\":\"p2\",\"ip\":\"10.0.0.2\",\"port\":6000\x7d]\x7d"

/-- Scenario B, the value that text decodes to. -/
def scenarioB : JSVal :=
  .obj [("peers", .arr [.obj [("peer_id", .str "p2"), ("ip", .str "10.0.0.2"),
    ("port", .num (.int 6000))]])]

/-- The headers `makeRequest` sends. -/
def jsonHeaders : List (String × String) := [("Content-Type", "application/json")]

/-! ## Basic facts about computations -/

theorem Eff.bind_run {α β : Type} (m : Eff α) (f : α → Eff β) (w : World) :
    (m >>= f) w = match m w with
      | (.ok a, w1) => f a w1
      | (.error e, w1) => (.error e, w1) := rfl

theorem Eff.pure_run {α : Type} (a : α) (w : World) : (pure a : Eff α) w = (.ok a, w) := rfl

theorem transmit_run (P : Platform) (endpoint method : String) (data : JSVal) (w : World) :
    transmit P endpoint method data w =
      match requestOptions P endpoint method data with
      | .error e => (.error e, w)
      | .ok options =>
        match P.fetch options with
        | .error e => (.error e, { w with fetched := w.fetched ++ [options] })
        | .ok response => (response.text, { w with fetched := w.fetched ++ [options] }) := rfl

/-- What the transport returns or throws does not depend on the page. -/
theorem transmit_result (P : Platform) (endpoint method : String) (data : JSVal)
    (w w0 : World) :
    (transmit P endpoint method data w).1 = (transmit P endpoint method data w0).1 := by
  rw [transmit_run, transmit_run]
  cases requestOptions P endpoint method data with
  | error e => rfl
  | ok options => simp only []; cases P.fetch options <;> rfl

theorem transmit_dom (P : Platform) (endpoint method : String) (data : JSVal) (w : World) :
    (transmit P endpoint method data w).2.dom = w.dom := by
  rw [transmit_run]
  cases requestOptions P endpoint method data with
  | error e => rfl
  | ok options => simp only []; cases P.fetch options <;> rfl

theorem transmit_sinkCalls (P : Platform) (endpoint method : String) (data : JSVal)
    (w : World) : (transmit P endpoint method data w).2.sinkCalls = w.sinkCalls := by
  rw [transmit_run]
  cases requestOptions P endpoint method data with
  | error e => rfl
  | ok options => simp only []; cases P.fetch options <;> rfl

theorem transmit_requested (P : Platform) (endpoint method : String) (data : JSVal)
    (w : World) : (transmit P endpoint method data w).2.requested = w.requested := by
  rw [transmit_run]
  cases requestOptions P endpoint method data with
  | error e => rfl
  | ok options => simp only []; cases P.fetch options <;> rfl

/-- The world `makeRequest` leaves is the one its transport leaves. -/
theorem makeRequest_world (P : Platform) (endpoint method : String) (data : JSVal)
    (w : World) :
    (makeRequest P endpoint method data w).2
      = (transmit P endpoint method data
          { w with requested := w.requested ++ [RequestCall.mk endpoint method data] }).2 := by
  unfold makeRequest
  rcases transmit P endpoint method data
    { w with requested := w.requested ++ [RequestCall.mk endpoint method data] } with ⟨r, w1⟩
  cases r with
  | error t => simp only []; cases t.message <;> rfl
  | ok text => simp only []; cases P.parse text <;> rfl

theorem makeRequest_dom (P : Platform) (endpoint method : String) (data : JSVal) (w : World) :
    (makeRequest P endpoint method data w).2.dom = w.dom := by
  rw [makeRequest_world, transmit_dom]

theorem makeRequest_sinkCalls (P : Platform) (endpoint method : String) (data : JSVal)
    (w : World) : (makeRequest P endpoint method data w).2.sinkCalls = w.sinkCalls := by
  rw [makeRequest_world, transmit_sinkCalls]

/-- `makeRequest` records its call. -/
theorem makeRequest_requested (P : Platform) (endpoint method : String) (data : JSVal)
    (w : World) :
    (makeRequest P endpoint method data w).2.requested
      = w.requested ++ [RequestCall.mk endpoint method data] := by
  rw [makeRequest_world, transmit_requested]

/-- The result of `makeRequest` when the transport throws the value `thrown`: the
`catch` clause reads `thrown.message`. -/
theorem makeRequest_of_transmit_thrown (P : Platform) (endpoint method : String)
    (data : JSVal) (w : World) (thrown : Thrown)
    (h : (transmit P endpoint method data w).1 = .error thrown) :
    (makeRequest P endpoint method data w).1 =
      match thrown.message with
      | .ok message => .ok (.obj [("error", message)])
      | .error e => .error e := by
  rw [transmit_result P endpoint method data w
    { w with requested := w.requested ++ [RequestCall.mk endpoint method data] }] at h
  unfold makeRequest
  rcases hT : transmit P endpoint method data
    { w with requested := w.requested ++ [RequestCall.mk endpoint method data] } with ⟨r, w1⟩
  rw [hT] at h
  simp only [] at h
  subst h
  simp only []
  cases thrown.message <;> rfl

/-- The result of `makeRequest` when the transport throws an `Error` object. -/
theorem makeRequest_of_transmit_error (P : Platform) (endpoint method : String) (data : JSVal)
    (w : World) (e : JSError) (h : (transmit P endpoint method data w).1 = .error (.error e)) :
    (makeRequest P endpoint method data w).1 = .ok (.obj [("error", .str e.message)]) := by
  rw [makeRequest_of_transmit_thrown P endpoint method data w _ h]
  rfl

/-- The result of `makeRequest` when the transport delivers a body text. -/
theorem makeRequest_of_transmit_ok (P : Platform) (endpoint method : String) (data : JSVal)
    (w : World) (text : String) (h : (transmit P endpoint method data w).1 = .ok text) :
    (makeRequest P endpoint method data w).1 =
      match P.parse text with
      | .ok v => .ok v
      | .error _ => .ok (.obj [("raw", .str text)]) := by
  rw [transmit_result P endpoint method data w
    { w with requested := w.requested ++ [RequestCall.mk endpoint method data] }] at h
  unfold makeRequest
  rcases hT : transmit P endpoint method data
    { w with requested := w.requested ++ [RequestCall.mk endpoint method data] } with ⟨r, w1⟩
  rw [hT] at h
  simp only [] at h
  subst h
  simp only []
  cases P.parse text <;> rfl

/-- What `requestOptions` builds, field by field. -/
theorem requestOptions_ok (P : Platform) (endpoint method : String) (data : JSVal)
    (options : Request) (h : requestOptions P endpoint method data = .ok options) :
    options.url = BASE_URL ++ endpoint ∧ options.method = method
      ∧ options.headers = [("Content-Type", "application/json")]
      ∧ (options.body.isSome = true ↔ (data.truthy = true ∧ method ≠ "GET"))
      ∧ (∀ text, options.body = some text → P.stringify data = .ok text) := by
  unfold requestOptions at h
  by_cases hc : (data.truthy && method != "GET") = true
  · rw [if_pos hc] at h
    have hc2 : data.truthy = true ∧ method ≠ "GET" := by simpa using hc
    cases hs : P.stringify data with
    | error e => rw [hs] at h; cases h
    | ok text =>
      rw [hs] at h
      simp only [Except.ok.injEq] at h
      subst h
      refine ⟨rfl, rfl, rfl, ?_, ?_⟩
      · simp [hc2.1, hc2.2]
      · intro t ht
        simp only [Option.some.injEq] at ht
        rw [← ht]
  · rw [if_neg hc] at h
    simp only [Except.ok.injEq] at h
    subst h
    refine ⟨rfl, rfl, rfl, ?_, ?_⟩
    · simp only [Option.isSome_none, Bool.false_eq_true, false_iff]
      intro hc2
      exact hc (by simp [hc2.1, hc2.2])
    · intro t ht
      cases ht

/-- The requests `makeRequest` hands to `fetch`: exactly the one it built. -/
theorem makeRequest_fetched (P : Platform) (endpoint method : String) (data : JSVal)
    (w : World) (options : Request) (h : requestOptions P endpoint method data = .ok options) :
    (makeRequest P endpoint method data w).2.fetched = w.fetched ++ [options] := by
  rw [makeRequest_world, transmit_run, h]
  simp only []
  cases P.fetch options <;> rfl

/-! ## The bindings as request, dispatch and secondary pass -/

theorem getPeerList_eq (P : Platform) :
    getPeerList P = makeRequest P "/get-list" "GET" .null
      >>= finish "registerResponse" (Operation.secondary .getPeerList) := rfl

theorem getMessages_eq (P : Platform) :
    getMessages P = readValue "broadcastChannel" >>= fun channel =>
      makeRequest P "/get-messages" "GET" (.obj [("channel", .str channel)])
        >>= finish "broadcastResponse" (Operation.secondary .getMessages) := rfl

theorem get_ok_of_not_nullish (r : JSVal) (key : String) (h : r.isNullish = false) :
    ∃ v, r.get key = .ok v := by
  cases r <;> simp [JSVal.isNullish, JSVal.get] at h ⊢

theorem get_error_of_nullish (r : JSVal) (key : String) (h : r.isNullish = true) :
    ∃ e, r.get key = .error e := by
  cases r <;> simp [JSVal.isNullish, JSVal.get] at h ⊢

theorem errorFlag_truthy (r : JSVal) (h : r.isNullish = false) :
    (errorFlag r).truthy = r.hasTruthyField "error" := by
  cases r with
  | obj props =>
    simp only [errorFlag, JSVal.get, JSVal.hasTruthyField]
    cases hl : props.lookup "error" with
    | none => rfl
    | some v => cases v <;> rfl
  | undefined => simp [JSVal.isNullish] at h
  | null => simp [JSVal.isNullish] at h
  | bool b => rfl
  | num n => rfl
  | str t => rfl
  | arr items => rfl

theorem displayResponse_run (sink : String) (data flag : JSVal) (w : World) (el : Element)
    (hel : w.dom sink = some el) :
    displayResponse sink data flag w =
      (.ok (),
        { dom := fun j => if j = sink then
              some (shown el data (match flag with
                | .undefined => JSVal.bool false
                | given => given))
            else w.dom j
          requested := w.requested
          fetched := w.fetched
          sinkCalls := w.sinkCalls ++ [SinkCall.mk sink data (match flag with
            | .undefined => JSVal.bool false
            | given => given)] }) := by
  simp only [displayResponse, hel, shown]

/-- A binding whose result is `null` or `undefined` throws at `result.error`, before
`displayResponse` is called. -/
theorem finish_nullish (sink : String) (sec : JSVal → Eff Unit) (r : JSVal) (w : World)
    (h : r.isNullish = true) : ∃ e, finish sink sec r w = (.error e, w) := by
  obtain ⟨e, he⟩ := get_error_of_nullish r "error" h
  exact ⟨e, by simp only [finish, Eff.bind_run, Eff.ofExcept, he]⟩

/-- A binding whose result is neither `null` nor `undefined` dispatches it to the
sink and goes on to the secondary pass. -/
theorem finish_run (sink : String) (sec : JSVal → Eff Unit) (r : JSVal) (w : World)
    (el : Element) (h : r.isNullish = false) (hel : w.dom sink = some el) :
    finish sink sec r w = sec r (afterDisplay w sink r el) := by
  obtain ⟨v, hv⟩ := get_ok_of_not_nullish r "error" h
  simp only [finish, Eff.bind_run, Eff.ofExcept, hv, displayResponse_run sink r v w el hel,
    afterDisplay, errorFlag]
  cases v <;> rfl

/-! ## The secondary rendering pass -/

theorem writeInnerHTML_run (id markup : String) (w : World) (el : Element)
    (hel : w.dom id = some el) :
    writeInnerHTML id markup w = (.ok (), withInnerHTML w id markup el) := by
  simp only [writeInnerHTML, hel, withInnerHTML]

theorem withInnerHTML_dom_self (w : World) (id markup : String) (el : Element) :
    (withInnerHTML w id markup el).dom id = some { el with innerHTML := markup } := by
  simp [withInnerHTML]

theorem withInnerHTML_dom_other (w : World) (id markup : String) (el : Element) (j : String)
    (hj : j ≠ id) : (withInnerHTML w id markup el).dom j = w.dom j := by
  simp [withInnerHTML, hj]

theorem appendItem_run (listId : String) (template : JSVal → Except JSError String)
    (item : JSVal) (w : World) (el : Element) (hel : w.dom listId = some el) :
    appendItem listId template item w =
      match template item with
      | .ok markup => (.ok (), withInnerHTML w listId (el.innerHTML ++ markup) el)
      | .error e => (.error e, w) := by
  simp only [appendItem, Eff.bind_run, readInnerHTML, hel, Eff.ofExcept]
  cases template item with
  | error e => rfl
  | ok markup => simp only [writeInnerHTML_run listId _ w el hel]

/-- The loop over the items, unfolded by one item. -/
theorem forEach_cons (item : JSVal) (items : List JSVal) (callback : JSVal → Eff Unit)
    (w : World) :
    forEach (.arr (item :: items)) callback w =
      match callback item w with
      | (.ok _, w1) => forEach (.arr items) callback w1
      | (.error e, w1) => (.error e, w1) := by
  simp only [forEach, List.foldr_cons, Eff.bind]
  rcases callback item w with ⟨r, w1⟩
  cases r <;> rfl

theorem forEach_nil (callback : JSVal → Eff Unit) (w : World) :
    forEach (.arr []) callback w = (.ok (), w) := rfl

/-- The loop touches nothing but the list region, which stays present. -/
theorem renderLoop_frame (listId : String) (template : JSVal → Except JSError String)
    (items : List JSVal) :
    ∀ w : World, (w.dom listId).isSome = true →
      (forEach (.arr items) (appendItem listId template) w).2.sinkCalls = w.sinkCalls
      ∧ (forEach (.arr items) (appendItem listId template) w).2.fetched = w.fetched
      ∧ (∀ j, j ≠ listId →
          (forEach (.arr items) (appendItem listId template) w).2.dom j = w.dom j) := by
  induction items with
  | nil => intro w _; exact ⟨rfl, rfl, fun _ _ => rfl⟩
  | cons item items ih =>
    intro w hw
    obtain ⟨el, hel⟩ := Option.isSome_iff_exists.1 hw
    rw [forEach_cons, appendItem_run listId template item w el hel]
    cases template item with
    | error e => exact ⟨rfl, rfl, fun _ _ => rfl⟩
    | ok markup =>
      simp only []
      have h1 : ((withInnerHTML w listId (el.innerHTML ++ markup) el).dom listId).isSome = true := by
        rw [withInnerHTML_dom_self]; rfl
      obtain ⟨a, b, c⟩ := ih _ h1
      refine ⟨a, b, fun j hj => ?_⟩
      rw [c j hj, withInnerHTML_dom_other _ _ _ _ _ hj]

/-- The loop completes when every item has a markup. -/
theorem renderLoop_ok (listId : String) (template : JSVal → Except JSError String)
    (items : List JSVal) (hall : ∀ item ∈ items, ∃ markup, template item = .ok markup) :
    ∀ w : World, (w.dom listId).isSome = true →
      (forEach (.arr items) (appendItem listId template) w).1 = .ok () := by
  induction items with
  | nil => intro w _; rfl
  | cons item items ih =>
    intro w hw
    obtain ⟨el, hel⟩ := Option.isSome_iff_exists.1 hw
    obtain ⟨markup, hm⟩ := hall item (List.mem_cons_self _ _)
    rw [forEach_cons, appendItem_run listId template item w el hel, hm]
    simp only []
    apply ih (fun it hit => hall it (List.mem_cons_of_mem _ hit))
    rw [withInnerHTML_dom_self]; rfl

/-- The secondary pass touches nothing but its list region. -/
theorem renderList_frame (key listId heading : String)
    (template : JSVal → Except JSError String) (r : JSVal) (w : World)
    (hw : (w.dom listId).isSome = true) :
    (renderList key listId heading template r w).2.sinkCalls = w.sinkCalls
      ∧ (renderList key listId heading template r w).2.fetched = w.fetched
      ∧ (∀ j, j ≠ listId → (renderList key listId heading template r w).2.dom j = w.dom j) := by
  obtain ⟨el, hel⟩ := Option.isSome_iff_exists.1 hw
  simp only [renderList, Eff.bind_run, Eff.ofExcept]
  cases hg : r.get key with
  | error e => exact ⟨rfl, rfl, fun _ _ => rfl⟩
  | ok v =>
    simp only []
    by_cases ht : v.truthy = true
    · simp only [ht, if_true, Eff.bind_run, writeInnerHTML_run listId heading w el hel, hg,
        Eff.ofExcept]
      cases v with
      | arr items =>
        have h1 : ((withInnerHTML w listId heading el).dom listId).isSome = true := by
          rw [withInnerHTML_dom_self]; rfl
        obtain ⟨a, b, c⟩ := renderLoop_frame listId template items _ h1
        refine ⟨a, b, fun j hj => ?_⟩
        rw [c j hj, withInnerHTML_dom_other _ _ _ _ _ hj]
      | undefined => exact ⟨rfl, rfl, fun j hj => withInnerHTML_dom_other _ _ _ _ _ hj⟩
      | null => exact ⟨rfl, rfl, fun j hj => withInnerHTML_dom_other _ _ _ _ _ hj⟩
      | bool b => exact ⟨rfl, rfl, fun j hj => withInnerHTML_dom_other _ _ _ _ _ hj⟩
      | num n => exact ⟨rfl, rfl, fun j hj => withInnerHTML_dom_other _ _ _ _ _ hj⟩
      | str t => exact ⟨rfl, rfl, fun j hj => withInnerHTML_dom_other _ _ _ _ _ hj⟩
      | obj props => exact ⟨rfl, rfl, fun j hj => withInnerHTML_dom_other _ _ _ _ _ hj⟩
    · simp only [ht, Bool.false_eq_true, if_false]
      exact ⟨rfl, rfl, fun _ _ => rfl⟩

theorem field_ok (entry : JSVal) (f : String)
    (h : (match entry.get f with
      | .ok v => v.toStr.toBool
      | .error _ => false) = true) :
    ∃ v text, entry.get f = .ok v ∧ v.toStr = .ok text := by
  cases hg : entry.get f with
  | error e => rw [hg] at h; cases h
  | ok v =>
    rw [hg] at h
    simp only [] at h
    cases ht : v.toStr with
    | error e => rw [ht] at h; cases h
    | ok text => exact ⟨v, text, rfl, ht⟩

theorem peerItem_ok (peer : JSVal) (h : entryOk ["peer_id", "ip", "port"] peer = true) :
    ∃ markup, peerItem peer = .ok markup := by
  simp only [entryOk, List.all_cons, List.all_nil, Bool.and_true, Bool.and_eq_true] at h
  obtain ⟨_, h1, h2, h3⟩ := h
  obtain ⟨v1, t1, g1, s1⟩ := field_ok peer "peer_id" h1
  obtain ⟨v2, t2, g2, s2⟩ := field_ok peer "ip" h2
  obtain ⟨v3, t3, g3, s3⟩ := field_ok peer "port" h3
  simp only [peerItem, bind, Except.bind, g1, g2, g3, s1, s2, s3, pure, Except.pure]
  exact ⟨_, rfl⟩

theorem messageItem_ok (msg : JSVal) (h : entryOk ["from", "message", "timestamp"] msg = true) :
    ∃ markup, messageItem msg = .ok markup := by
  simp only [entryOk, List.all_cons, List.all_nil, Bool.and_true, Bool.and_eq_true] at h
  obtain ⟨_, h1, h2, h3⟩ := h
  obtain ⟨v1, t1, g1, s1⟩ := field_ok msg "from" h1
  obtain ⟨v2, t2, g2, s2⟩ := field_ok msg "message" h2
  obtain ⟨v3, t3, g3, s3⟩ := field_ok msg "timestamp" h3
  simp only [messageItem, bind, Except.bind, g1, g2, g3, s1, s2, s3, pure, Except.pure]
  exact ⟨_, rfl⟩

/-- The secondary pass completes on a result whose list field is falsy or an array
of entries that have a markup. -/
theorem renderList_ok (key listId heading : String) (fields : List String)
    (template : JSVal → Except JSError String) (r : JSVal) (w : World)
    (htemplate : ∀ entry, entryOk fields entry = true → ∃ markup, template entry = .ok markup)
    (hw : (w.dom listId).isSome = true) (hr : listOk key fields r = true) :
    (renderList key listId heading template r w).1 = .ok () := by
  obtain ⟨el, hel⟩ := Option.isSome_iff_exists.1 hw
  simp only [renderList, Eff.bind_run, Eff.ofExcept]
  unfold listOk at hr
  cases hg : r.get key with
  | error e => rw [hg] at hr; cases hr
  | ok v =>
    rw [hg] at hr
    simp only []
    by_cases ht : v.truthy = true
    · simp only [ht, if_true, Eff.bind_run, writeInnerHTML_run listId heading w el hel, hg,
        Eff.ofExcept]
      cases v with
      | arr items =>
        simp only [List.all_eq_true] at hr
        apply renderLoop_ok listId template items (fun it hit => htemplate it (hr it hit))
        rw [withInnerHTML_dom_self]; rfl
      | undefined => simp [JSVal.truthy] at ht
      | null => simp [JSVal.truthy] at ht
      | bool b => simp [ht] at hr
      | num n => simp [ht] at hr
      | str t => simp [ht] at hr
      | obj props => simp [ht] at hr
    · simp only [ht, Bool.false_eq_true, if_false]
      rfl

theorem secondary_frame (op : Operation) (r : JSVal) (w : World)
    (hp : (w.dom "peerList").isSome = true) (hm : (w.dom "messageList").isSome = true) :
    (op.secondary r w).2.sinkCalls = w.sinkCalls
      ∧ (op.secondary r w).2.fetched = w.fetched
      ∧ (∀ j, j ≠ "peerList" → j ≠ "messageList" → (op.secondary r w).2.dom j = w.dom j) := by
  cases op with
  | getPeerList =>
    obtain ⟨a, b, c⟩ := renderList_frame "peers" "peerList" "<h3>Active Peers:</h3>" peerItem r w hp
    exact ⟨a, b, fun j h1 _ => c j h1⟩
  | getMessages =>
    obtain ⟨a, b, c⟩ :=
      renderList_frame "messages" "messageList" "<h3>Messages:</h3>" messageItem r w hm
    exact ⟨a, b, fun j _ h2 => c j h2⟩
  | registerPeer => exact ⟨rfl, rfl, fun _ _ _ => rfl⟩
  | joinChannel => exact ⟨rfl, rfl, fun _ _ _ => rfl⟩
  | connectPeer => exact ⟨rfl, rfl, fun _ _ _ => rfl⟩
  | broadcastMessage => exact ⟨rfl, rfl, fun _ _ _ => rfl⟩
  | sendDirectMessage => exact ⟨rfl, rfl, fun _ _ _ => rfl⟩

theorem secondary_ok (op : Operation) (r : JSVal) (w : World)
    (hp : (w.dom "peerList").isSome = true) (hm : (w.dom "messageList").isSome = true)
    (hr : op.completesOn r = true) : (op.secondary r w).1 = .ok () := by
  simp only [Operation.completesOn, Bool.and_eq_true] at hr
  cases op with
  | getPeerList =>
    exact renderList_ok "peers" "peerList" _ _ peerItem r w peerItem_ok hp hr.2
  | getMessages =>
    exact renderList_ok "messages" "messageList" _ _ messageItem r w messageItem_ok hm hr.2
  | registerPeer => rfl
  | joinChannel => rfl
  | connectPeer => rfl
  | broadcastMessage => rfl
  | sendDirectMessage => rfl

/-! ## Every binding is a request followed by `finish` -/

theorem World.WellFormed.elem {w : World} (hw : w.WellFormed) (id : String) (hid : id ∈ pageIds) :
    ∃ el, w.dom id = some el :=
  Option.isSome_iff_exists.1 (hw id hid)

theorem finish_simple (sink : String) (r : JSVal) (w : World) :
    (Eff.ofExcept (r.get "error") >>= fun flag => displayResponse sink r flag) w
      = finish sink (fun _ => pure ()) r w := by
  simp only [finish, Eff.bind_run, Eff.ofExcept]
  cases r.get "error" with
  | error e => rfl
  | ok v =>
    simp only []
    rcases displayResponse sink r v w with ⟨x, w1⟩
    cases x <;> rfl

theorem registerPeer_eq (P : Platform) (w : World) (hw : w.WellFormed) :
    ∃ a b c, w.dom "peerId" = some a ∧ w.dom "peerIp" = some b ∧ w.dom "peerPort" = some c
      ∧ registerPeer P w = (makeRequest P "/submit-info" "POST"
          (.obj [("peer_id", .str a.value), ("ip", .str b.value),
            ("port", .num (parseInt c.value))])
        >>= finish "registerResponse" (fun _ => pure ())) w := by
  obtain ⟨a, ha⟩ := hw.elem "peerId" (by decide)
  obtain ⟨b, hb⟩ := hw.elem "peerIp" (by decide)
  obtain ⟨c, hc⟩ := hw.elem "peerPort" (by decide)
  refine ⟨a, b, c, ha, hb, hc, ?_⟩
  simp only [registerPeer, Eff.bind_run, readValue, ha, hb, hc]
  rcases makeRequest P "/submit-info" "POST" _ w with ⟨r, w1⟩
  cases r with
  | error e => rfl
  | ok v => exact finish_simple _ v w1

/-- Every binding, on a page that has its elements, is one `makeRequest` call
followed by the dispatch to its sink and its secondary pass. -/
theorem run_eq (P : Platform) (op : Operation) (w : World) (hw : w.WellFormed) :
    ∃ endpoint method data,
      op.run P w = (makeRequest P endpoint method data
        >>= finish op.sink op.secondary) w := by
  cases op with
  | registerPeer =>
    obtain ⟨a, b, c, _, _, _, h⟩ := registerPeer_eq P w hw
    exact ⟨_, _, _, h⟩
  | getPeerList => exact ⟨_, _, _, by rw [Operation.run, getPeerList_eq]; rfl⟩
  | joinChannel =>
    obtain ⟨a, ha⟩ := hw.elem "channelPeerId" (by decide)
    obtain ⟨b, hb⟩ := hw.elem "channelName" (by decide)
    refine ⟨"/add-list", "POST",
      .obj [("peer_id", .str a.value), ("channel", .str b.value)], ?_⟩
    simp only [Operation.run, joinChannel, Eff.bind_run, readValue, ha, hb, Operation.sink,
      Operation.secondary]
    rcases makeRequest P "/add-list" "POST" _ w with ⟨r, w1⟩
    cases r with
    | error e => rfl
    | ok v => exact finish_simple _ v w1
  | connectPeer =>
    obtain ⟨a, ha⟩ := hw.elem "fromPeer" (by decide)
    obtain ⟨b, hb⟩ := hw.elem "toPeer" (by decide)
    refine ⟨"/connect-peer", "POST",
      .obj [("from_peer", .str a.value), ("to_peer", .str b.value)], ?_⟩
    simp only [Operation.run, connectPeer, Eff.bind_run, readValue, ha, hb, Operation.sink,
      Operation.secondary]
    rcases makeRequest P "/connect-peer" "POST" _ w with ⟨r, w1⟩
    cases r with
    | error e => rfl
    | ok v => exact finish_simple _ v w1
  | broadcastMessage =>
    obtain ⟨a, ha⟩ := hw.elem "broadcastPeerId" (by decide)
    obtain ⟨b, hb⟩ := hw.elem "broadcastChannel" (by decide)
    obtain ⟨c, hc⟩ := hw.elem "broadcastMessage" (by decide)
    refine ⟨"/broadcast-peer", "POST",
      .obj [("peer_id", .str a.value), ("channel", .str b.value),
        ("message", .str c.value)], ?_⟩
    simp only [Operation.run, broadcastMessage, Eff.bind_run, readValue, ha, hb, hc,
      Operation.sink, Operation.secondary]
    rcases makeRequest P "/broadcast-peer" "POST" _ w with ⟨r, w1⟩
    cases r with
    | error e => rfl
    | ok v => exact finish_simple _ v w1
  | getMessages =>
    obtain ⟨a, ha⟩ := hw.elem "broadcastChannel" (by decide)
    refine ⟨"/get-messages", "GET", .obj [("channel", .str a.value)], ?_⟩
    rw [Operation.run, getMessages_eq]
    simp only [Eff.bind_run, readValue, ha, Operation.sink]
  | sendDirectMessage =>
    obtain ⟨a, ha⟩ := hw.elem "dmFromPeer" (by decide)
    obtain ⟨b, hb⟩ := hw.elem "dmToPeer" (by decide)
    obtain ⟨c, hc⟩ := hw.elem "dmMessage" (by decide)
    refine ⟨"/send-peer", "POST",
      .obj [("from_peer", .str a.value), ("to_peer", .str b.value),
        ("message", .str c.value)], ?_⟩
    simp only [Operation.run, sendDirectMessage, Eff.bind_run, readValue, ha, hb, hc,
      Operation.sink, Operation.secondary]
    rcases makeRequest P "/send-peer" "POST" _ w with ⟨r, w1⟩
    cases r with
    | error e => rfl
    | ok v => exact finish_simple _ v w1

/-- The world and result of a binding in terms of the outcome of its request: when
`makeRequest` raises, so does the binding, at once; otherwise the binding goes on
with the result. -/
theorem run_spec (P : Platform) (op : Operation) (w : World) (hw : w.WellFormed) :
    ∃ endpoint method data w1,
      w1.dom = w.dom ∧ w1.sinkCalls = w.sinkCalls
      ∧ ((∃ e, makeRequest P endpoint method data w = (.error e, w1)
            ∧ op.run P w = (.error e, w1))
        ∨ (∃ r, makeRequest P endpoint method data w = (.ok r, w1)
            ∧ op.run P w = finish op.sink op.secondary r w1)) := by
  obtain ⟨endpoint, method, data, h⟩ := run_eq P op w hw
  refine ⟨endpoint, method, data, (makeRequest P endpoint method data w).2,
    makeRequest_dom P endpoint method data w, makeRequest_sinkCalls P endpoint method data w, ?_⟩
  rw [h, Eff.bind_run]
  generalize makeRequest P endpoint method data w = out
  rcases out with ⟨x, w1⟩
  cases x with
  | error e => exact Or.inl ⟨e, rfl, rfl⟩
  | ok r => exact Or.inr ⟨r, rfl, rfl⟩

theorem sink_mem (op : Operation) : op.sink ∈ pageIds := by
  cases op <;> decide

theorem sink_ne_lists (op : Operation) : op.sink ≠ "peerList" ∧ op.sink ≠ "messageList" := by
  cases op <;> decide

/-- What a binding does with the outcome of its request.  When `makeRequest` raises,
the binding raises without dispatching.  Otherwise, with result `r`: a `null` or
`undefined` result makes it throw before anything is dispatched; any other result is
dispatched to the sink exactly once, the sink region is left as `displayResponse`
set it, and the binding completes when the secondary pass can render the result. -/
theorem dispatch_spec (P : Platform) (op : Operation) (w : World) (hw : w.WellFormed) :
    ∃ endpoint method data,
      (∃ e, (makeRequest P endpoint method data w).1 = .error e
          ∧ (op.run P w).2.sinkCalls = w.sinkCalls ∧ (op.run P w).1 = .error e)
      ∨ ∃ r, (makeRequest P endpoint method data w).1 = .ok r
        ∧ (r.isNullish = true →
            (op.run P w).2.sinkCalls = w.sinkCalls ∧ ∃ e, (op.run P w).1 = .error e)
        ∧ (r.isNullish = false →
            (op.run P w).2.sinkCalls = w.sinkCalls ++ [SinkCall.mk op.sink r (errorFlag r)]
            ∧ (∃ el, w.dom op.sink = some el
                ∧ (op.run P w).2.dom op.sink = some (shown el r (errorFlag r)))
            ∧ (op.completesOn r = true → (op.run P w).1 = .ok ())) := by
  obtain ⟨endpoint, method, data, w1, hd, hs, hcase⟩ := run_spec P op w hw
  refine ⟨endpoint, method, data, ?_⟩
  rcases hcase with ⟨e, hm, hrun⟩ | ⟨r, hm, hrun⟩
  · exact Or.inl ⟨e, by rw [hm], by rw [hrun]; exact hs, by rw [hrun]⟩
  refine Or.inr ⟨r, by rw [hm], ?_, ?_⟩
  · intro hn
    obtain ⟨e, he⟩ := finish_nullish op.sink op.secondary r w1 hn
    rw [hrun, he]
    exact ⟨hs, e, rfl⟩
  · intro hn
    obtain ⟨el, hel⟩ := hw.elem op.sink (sink_mem op)
    have hel1 : w1.dom op.sink = some el := by rw [hd, hel]
    obtain ⟨pl, hpl⟩ := hw.elem "peerList" (by decide)
    obtain ⟨ml, hml⟩ := hw.elem "messageList" (by decide)
    obtain ⟨n1, n2⟩ := sink_ne_lists op
    have hp : ((afterDisplay w1 op.sink r el).dom "peerList").isSome = true := by
      simp only [afterDisplay, if_neg (Ne.symm n1), hd, hpl, Option.isSome_some]
    have hq : ((afterDisplay w1 op.sink r el).dom "messageList").isSome = true := by
      simp only [afterDisplay, if_neg (Ne.symm n2), hd, hml, Option.isSome_some]
    obtain ⟨fa, _, fc⟩ := secondary_frame op r (afterDisplay w1 op.sink r el) hp hq
    rw [hrun, finish_run op.sink op.secondary r w1 el hn hel1]
    refine ⟨?_, ⟨el, hel, ?_⟩, ?_⟩
    · rw [fa]
      simp only [afterDisplay, hs]
    · rw [fc op.sink n1 n2]
      simp only [afterDisplay, if_pos]
    · intro hc
      exact secondary_ok op r _ hp hq hc

/-! ## Platforms -/

theorem delivers_of_fetch (P : Platform) (t : String)
    (hS : ∀ d, ∃ text, P.stringify d = .ok text)
    (hF : ∀ request, ∃ status, P.fetch request = .ok ⟨status, .ok t⟩) : P.Delivers t := by
  intro endpoint method data w
  rw [transmit_run]
  have hopt : ∃ options, requestOptions P endpoint method data = .ok options := by
    unfold requestOptions
    obtain ⟨text, ht⟩ := hS data
    by_cases hc : (data.truthy && method != "GET") = true
    · rw [if_pos hc, ht]; exact ⟨_, rfl⟩
    · rw [if_neg hc]; exact ⟨_, rfl⟩
  obtain ⟨options, ho⟩ := hopt
  obtain ⟨status, hf⟩ := hF options
  rw [ho]
  simp only [hf]

theorem fails_of_fetch (P : Platform) (e : JSError)
    (hS : ∀ d, ∃ text, P.stringify d = .ok text)
    (hF : ∀ request, P.fetch request = .error (.error e)) : P.FailsWith e := by
  intro endpoint method data w
  rw [transmit_run]
  have hopt : ∃ options, requestOptions P endpoint method data = .ok options := by
    unfold requestOptions
    obtain ⟨text, ht⟩ := hS data
    by_cases hc : (data.truthy && method != "GET") = true
    · rw [if_pos hc, ht]; exact ⟨_, rfl⟩
    · rw [if_neg hc]; exact ⟨_, rfl⟩
  obtain ⟨options, ho⟩ := hopt
  rw [ho]
  simp only [hF options]

theorem respondingPlatform_delivers (status : Nat) (body : String) (decoded : Option JSVal) :
    (respondingPlatform status body decoded).Delivers body :=
  delivers_of_fetch _ _ (fun _ => ⟨_, rfl⟩) (fun _ => ⟨status, rfl⟩)

theorem unreachablePlatform_fails (e : JSError) : (unreachablePlatform e).FailsWith e :=
  fails_of_fetch _ _ (fun _ => ⟨_, rfl⟩) (fun _ => rfl)

theorem samplePage_wellFormed : samplePage.WellFormed := by
  unfold World.WellFormed
  decide

theorem pageWithPort_wellFormed (port : String) : (pageWithPort port).WellFormed := by
  intro id hid
  by_cases h : id = "peerPort"
  · simp [pageWithPort, h]
  · simp only [pageWithPort, if_neg h]
    exact samplePage_wellFormed id hid

theorem result_of_fails (P : Platform) (e : JSError) (h : P.FailsWith e)
    (endpoint method : String) (data : JSVal) (w : World) :
    (makeRequest P endpoint method data w).1 = .ok (.obj [("error", .str e.message)]) :=
  makeRequest_of_transmit_error P endpoint method data w e (h endpoint method data w)

theorem result_of_decoded (P : Platform) (t : String) (v : JSVal) (h : P.Delivers t)
    (hp : P.parse t = .ok v) (endpoint method : String) (data : JSVal) (w : World) :
    (makeRequest P endpoint method data w).1 = .ok v := by
  rw [makeRequest_of_transmit_ok P endpoint method data w t (h endpoint method data w), hp]

theorem result_of_undecodable (P : Platform) (t : String) (e : JSError) (h : P.Delivers t)
    (hp : P.parse t = .error e) (endpoint method : String) (data : JSVal) (w : World) :
    (makeRequest P endpoint method data w).1 = .ok (.obj [("raw", .str t)]) := by
  rw [makeRequest_of_transmit_ok P endpoint method data w t (h endpoint method data w), hp]

/-- The facts of `dispatch_spec` for a platform on which every request has the same
normalized result `r`. -/
theorem dispatch_of_result (P : Platform) (op : Operation) (w : World) (hw : w.WellFormed)
    (r : JSVal)
    (hR : ∀ endpoint method data w0, (makeRequest P endpoint method data w0).1 = .ok r) :
    (r.isNullish = true →
        (op.run P w).2.sinkCalls = w.sinkCalls ∧ ∃ e, (op.run P w).1 = .error e)
      ∧ (r.isNullish = false →
          (op.run P w).2.sinkCalls = w.sinkCalls ++ [SinkCall.mk op.sink r (errorFlag r)]
          ∧ (∃ el, w.dom op.sink = some el
              ∧ (op.run P w).2.dom op.sink = some (shown el r (errorFlag r)))
          ∧ (op.completesOn r = true → (op.run P w).1 = .ok ())) := by
  obtain ⟨endpoint, method, data, hcase⟩ := dispatch_spec P op w hw
  have hR1 := hR endpoint method data w
  rcases hcase with ⟨e, h1, _⟩ | ⟨r1, h1, h2⟩
  · rw [h1] at hR1; cases hR1
  · have : r1 = r := by
      rw [h1] at hR1
      exact Except.ok.inj hR1
    subst this
    exact h2

/-! ## When the secondary pass throws -/

theorem renderLoop_fail (listId : String) (template : JSVal → Except JSError String)
    (items : List JSVal) (hbad : ∃ item ∈ items, ∃ e, template item = .error e) :
    ∀ w : World, (w.dom listId).isSome = true →
      ∃ e, (forEach (.arr items) (appendItem listId template) w).1 = .error e := by
  induction items with
  | nil =>
    obtain ⟨item, hmem, _⟩ := hbad
    cases hmem
  | cons item items ih =>
    intro w hw
    obtain ⟨el, hel⟩ := Option.isSome_iff_exists.1 hw
    rw [forEach_cons, appendItem_run listId template item w el hel]
    cases ht : template item with
    | error e => exact ⟨e, rfl⟩
    | ok markup =>
      simp only []
      apply ih
      · obtain ⟨bad, hmem, e, he⟩ := hbad
        rcases List.mem_cons.1 hmem with rfl | htail
        · rw [ht] at he; cases he
        · exact ⟨bad, htail, e, he⟩
      · rw [withInnerHTML_dom_self]; rfl

theorem peerItem_fail (peer : JSVal) (h : entryOk ["peer_id", "ip", "port"] peer = false) :
    ∃ e, peerItem peer = .error e := by
  cases hn : peer.isNullish with
  | true =>
    obtain ⟨e, he⟩ := get_error_of_nullish peer "peer_id" hn
    exact ⟨e, by simp only [peerItem, bind, Except.bind, he]⟩
  | false =>
    obtain ⟨v1, g1⟩ := get_ok_of_not_nullish peer "peer_id" hn
    obtain ⟨v2, g2⟩ := get_ok_of_not_nullish peer "ip" hn
    obtain ⟨v3, g3⟩ := get_ok_of_not_nullish peer "port" hn
    simp only [entryOk, hn, Bool.not_false, Bool.true_and, List.all_cons, List.all_nil,
      Bool.and_true, g1, g2, g3] at h
    simp only [peerItem, bind, Except.bind, g1, g2, g3]
    cases s1 : v1.toStr with
    | error e => exact ⟨e, rfl⟩
    | ok t1 =>
      cases s2 : v2.toStr with
      | error e => exact ⟨e, rfl⟩
      | ok t2 =>
        cases s3 : v3.toStr with
        | error e => exact ⟨e, rfl⟩
        | ok t3 => simp [s1, s2, s3, Except.toBool] at h

theorem messageItem_fail (msg : JSVal)
    (h : entryOk ["from", "message", "timestamp"] msg = false) :
    ∃ e, messageItem msg = .error e := by
  cases hn : msg.isNullish with
  | true =>
    obtain ⟨e, he⟩ := get_error_of_nullish msg "from" hn
    exact ⟨e, by simp only [messageItem, bind, Except.bind, he]⟩
  | false =>
    obtain ⟨v1, g1⟩ := get_ok_of_not_nullish msg "from" hn
    obtain ⟨v2, g2⟩ := get_ok_of_not_nullish msg "message" hn
    obtain ⟨v3, g3⟩ := get_ok_of_not_nullish msg "timestamp" hn
    simp only [entryOk, hn, Bool.not_false, Bool.true_and, List.all_cons, List.all_nil,
      Bool.and_true, g1, g2, g3] at h
    simp only [messageItem, bind, Except.bind, g1, g2, g3]
    cases s1 : v1.toStr with
    | error e => exact ⟨e, rfl⟩
    | ok t1 =>
      cases s2 : v2.toStr with
      | error e => exact ⟨e, rfl⟩
      | ok t2 =>
        cases s3 : v3.toStr with
        | error e => exact ⟨e, rfl⟩
        | ok t3 => simp [s1, s2, s3, Except.toBool] at h

/-- The secondary pass throws on a result whose list field is truthy and not an
array of entries that have a markup. -/
theorem renderList_fail (key listId heading : String) (fields : List String)
    (template : JSVal → Except JSError String) (r : JSVal) (w : World)
    (htemplate : ∀ entry, entryOk fields entry = false → ∃ e, template entry = .error e)
    (hw : (w.dom listId).isSome = true) (hn : r.isNullish = false)
    (hr : listOk key fields r = false) :
    ∃ e, (renderList key listId heading template r w).1 = .error e := by
  obtain ⟨el, hel⟩ := Option.isSome_iff_exists.1 hw
  obtain ⟨v, hg⟩ := get_ok_of_not_nullish r key hn
  simp only [renderList, Eff.bind_run, Eff.ofExcept, hg]
  unfold listOk at hr
  rw [hg] at hr
  cases v with
  | arr items =>
    simp only [JSVal.truthy, if_true, Eff.bind_run, writeInnerHTML_run listId heading w el hel, hg]
    simp only [] at hr
    have hbad : ∃ item ∈ items, ∃ e, template item = .error e := by
      by_contra hcon
      have hall : items.all (entryOk fields) = true := by
        rw [List.all_eq_true]
        intro x hx
        by_contra hx2
        have hx3 : entryOk fields x = false := by simpa using hx2
        exact hcon ⟨x, hx, htemplate x hx3⟩
      rw [hall] at hr
      cases hr
    apply renderLoop_fail listId template items hbad
    rw [withInnerHTML_dom_self]; rfl
  | undefined => simp [JSVal.truthy] at hr
  | null => simp [JSVal.truthy] at hr
  | bool b =>
    have ht : (JSVal.bool b).truthy = true := by simpa using hr
    simp only [ht, if_true, Eff.bind_run, writeInnerHTML_run listId heading w el hel, hg]
    exact ⟨_, rfl⟩
  | num n =>
    have ht : (JSVal.num n).truthy = true := by simpa using hr
    simp only [ht, if_true, Eff.bind_run, writeInnerHTML_run listId heading w el hel, hg]
    exact ⟨_, rfl⟩
  | str t =>
    have ht : (JSVal.str t).truthy = true := by simpa using hr
    simp only [ht, if_true, Eff.bind_run, writeInnerHTML_run listId heading w el hel, hg]
    exact ⟨_, rfl⟩
  | obj props =>
    simp only [JSVal.truthy, if_true, Eff.bind_run, writeInnerHTML_run listId heading w el hel, hg]
    exact ⟨_, rfl⟩

theorem secondary_fail (op : Operation) (r : JSVal) (w : World)
    (hp : (w.dom "peerList").isSome = true) (hm : (w.dom "messageList").isSome = true)
    (hn : r.isNullish = false) (hr : op.completesOn r = false) :
    ∃ e, (op.secondary r w).1 = .error e := by
  simp only [Operation.completesOn, hn, Bool.not_false, Bool.true_and] at hr
  cases op with
  | getPeerList =>
    exact renderList_fail "peers" "peerList" _ _ peerItem r w peerItem_fail hp hn hr
  | getMessages =>
    exact renderList_fail "messages" "messageList" _ _ messageItem r w messageItem_fail hm hn hr
  | registerPeer => cases hr
  | joinChannel => cases hr
  | connectPeer => cases hr
  | broadcastMessage => cases hr
  | sendDirectMessage => cases hr

/-- A binding throws on every result it cannot render. -/
theorem run_fails_of_result (P : Platform) (op : Operation) (w : World) (hw : w.WellFormed)
    (r : JSVal)
    (hR : ∀ endpoint method data w0, (makeRequest P endpoint method data w0).1 = .ok r)
    (hc : op.completesOn r = false) : ∃ e, (op.run P w).1 = .error e := by
  cases hn : r.isNullish with
  | true => exact ((dispatch_of_result P op w hw r hR).1 hn).2
  | false =>
    obtain ⟨endpoint, method, data, w1, hd, _, hcase⟩ := run_spec P op w hw
    have hR1 := hR endpoint method data w
    have hB : ∃ r1, makeRequest P endpoint method data w = (.ok r1, w1)
        ∧ op.run P w = finish op.sink op.secondary r1 w1 := by
      rcases hcase with ⟨e, hm, _⟩ | hB
      · rw [hm] at hR1; cases hR1
      · exact hB
    obtain ⟨r1, hm, hrun⟩ := hB
    have : r1 = r := by
      rw [hm] at hR1
      exact Except.ok.inj hR1
    subst this
    obtain ⟨el, hel⟩ := hw.elem op.sink (sink_mem op)
    have hel1 : w1.dom op.sink = some el := by rw [hd, hel]
    obtain ⟨pl, hpl⟩ := hw.elem "peerList" (by decide)
    obtain ⟨ml, hml⟩ := hw.elem "messageList" (by decide)
    obtain ⟨n1, n2⟩ := sink_ne_lists op
    have hp : ((afterDisplay w1 op.sink r1 el).dom "peerList").isSome = true := by
      simp only [afterDisplay, if_neg (Ne.symm n1), hd, hpl, Option.isSome_some]
    have hq : ((afterDisplay w1 op.sink r1 el).dom "messageList").isSome = true := by
      simp only [afterDisplay, if_neg (Ne.symm n2), hd, hml, Option.isSome_some]
    rw [hrun, finish_run op.sink op.secondary r1 w1 el hn hel1]
    exact secondary_fail op r1 _ hp hq hn hc

/-! ## Claims about the transport -/

/-- C1, the cases the claim gets wrong.  A payload whose serialisation throws `null`
(a `toJSON` hook that does so) makes `makeRequest` itself raise: the `catch` clause
reads `error.message` on `null`, a `TypeError`.  A payload whose serialisation throws
the string "boom" makes it return the mapping with `error` set to `undefined`, not
to a message text. -/
theorem makeRequest_can_raise :
    (throwingPlatform (.value .null)).stringify (.obj [("peer_id", .str "p1")])
        = .error (.value .null)
    ∧ (makeRequest (throwingPlatform (.value .null)) "/submit-info" "POST"
        (.obj [("peer_id", .str "p1")]) samplePage).1
        = .error (typeError "Cannot read properties of null")
    ∧ (makeRequest (throwingPlatform (.value (.str "boom"))) "/submit-info" "POST"
        (.obj [("peer_id", .str "p1")]) samplePage).1
        = .ok (.obj [("error", .undefined)]) :=
  ⟨rfl, rfl, rfl⟩

/-- C1, amended. For every endpoint, method and payload: when nothing fails,
`makeRequest` ends normally; and for every failure raised while serialising the
payload, during `fetch`, or while reading the response body as text, whose thrown
value has a readable `message` property `m` (every `Error` object, with `m` its
message text, and every thrown value other than `null` and `undefined`),
`makeRequest` returns the mapping with the single field `error` set to `m` instead
of propagating the failure. -/
theorem makeRequest_catches (P : Platform) (endpoint method : String) (data : JSVal)
    (w : World) :
    (∀ text, (transmit P endpoint method data w).1 = .ok text →
        ∃ v, (makeRequest P endpoint method data w).1 = .ok v)
    ∧ (∀ thrown m, data.truthy = true → method ≠ "GET" → P.stringify data = .error thrown →
        thrown.message = .ok m →
        (makeRequest P endpoint method data w).1 = .ok (.obj [("error", m)]))
    ∧ (∀ options thrown m, requestOptions P endpoint method data = .ok options →
        P.fetch options = .error thrown → thrown.message = .ok m →
        (makeRequest P endpoint method data w).1 = .ok (.obj [("error", m)]))
    ∧ (∀ options response thrown m, requestOptions P endpoint method data = .ok options →
        P.fetch options = .ok response → response.text = .error thrown →
        thrown.message = .ok m →
        (makeRequest P endpoint method data w).1 = .ok (.obj [("error", m)]))
    ∧ (∀ e : JSError, (Thrown.error e).message = .ok (.str e.message))
    ∧ (∀ v : JSVal, v.isNullish = false → ∃ m, (Thrown.value v).message = .ok m) := by
  have key : ∀ thrown m, (transmit P endpoint method data w).1 = .error thrown →
      thrown.message = .ok m →
      (makeRequest P endpoint method data w).1 = .ok (.obj [("error", m)]) := by
    intro thrown m ht hm
    rw [makeRequest_of_transmit_thrown P endpoint method data w thrown ht, hm]
  refine ⟨?_, ?_, ?_, ?_, fun _ => rfl, fun v hv => get_ok_of_not_nullish v "message" hv⟩
  · intro text ht
    rw [makeRequest_of_transmit_ok P endpoint method data w text ht]
    cases P.parse text with
    | error e => exact ⟨_, rfl⟩
    | ok v => exact ⟨_, rfl⟩
  · intro thrown m ht hm hs hmsg
    apply key thrown m _ hmsg
    have ho : requestOptions P endpoint method data = .error thrown := by
      unfold requestOptions
      rw [if_pos (by simp [ht, hm]), hs]
    rw [transmit_run, ho]
  · intro options thrown m ho hf hmsg
    apply key thrown m _ hmsg
    rw [transmit_run, ho]
    simp only [hf]
  · intro options response thrown m ho hf ht hmsg
    apply key thrown m _ hmsg
    rw [transmit_run, ho]
    simp only [hf, ht]

/-- C1 amended, evaluated: with the remote service unreachable (`fetch` rejects with
the `TypeError` "Failed to fetch"), `makeRequest("/get-list", "GET")` returns the
`error` mapping. -/
theorem makeRequest_catches_witness :
    requestOptions (unreachablePlatform ⟨"TypeError", "Failed to fetch"⟩) "/get-list" "GET" .null
        = .ok ⟨"http://localhost:8001/get-list", "GET", jsonHeaders, none⟩
    ∧ (unreachablePlatform ⟨"TypeError", "Failed to fetch"⟩).fetch
        ⟨"http://localhost:8001/get-list", "GET", jsonHeaders, none⟩
        = .error (.error ⟨"TypeError", "Failed to fetch"⟩)
    ∧ (Thrown.error ⟨"TypeError", "Failed to fetch"⟩).message = .ok (.str "Failed to fetch")
    ∧ (makeRequest (unreachablePlatform ⟨"TypeError", "Failed to fetch"⟩) "/get-list" "GET"
        .null samplePage).1 = .ok (.obj [("error", .str "Failed to fetch")]) :=
  ⟨rfl, rfl, rfl,
    (makeRequest_catches (unreachablePlatform ⟨"TypeError", "Failed to fetch"⟩)
      "/get-list" "GET" .null samplePage).2.2.1 _ _ _ rfl rfl rfl⟩

/-- C7. Whenever serialising the payload does not throw, `makeRequest` hands exactly
one request to `fetch`; it goes to `BASE_URL` followed by the endpoint, uses the given
method and the JSON content type, and has a body if and only if the payload is
present (truthy, as every object and array is, and `null` and `undefined` are not)
and the method is not "GET"; the body, when there is one, is the JSON serialisation
of the payload, and with method "GET" there is none. -/
theorem makeRequest_request_shape (P : Platform) (endpoint method : String) (data : JSVal)
    (w : World)
    (hS : data.truthy = true → method ≠ "GET" → ∃ text, P.stringify data = .ok text) :
    ∃ request, (makeRequest P endpoint method data w).2.fetched = w.fetched ++ [request]
      ∧ request.url = BASE_URL ++ endpoint
      ∧ request.method = method
      ∧ request.headers = jsonHeaders
      ∧ (request.body.isSome = true ↔ (data.truthy = true ∧ method ≠ "GET"))
      ∧ (∀ text, request.body = some text → P.stringify data = .ok text)
      ∧ (method = "GET" → request.body = none)
      ∧ ((∃ props, data = .obj props) ∨ (∃ items, data = .arr items) →
          (request.body.isSome = true ↔ method ≠ "GET"))
      ∧ (data = .null ∨ data = .undefined → request.body = none) := by
  have hopt : ∃ options, requestOptions P endpoint method data = .ok options := by
    unfold requestOptions
    by_cases hc : (data.truthy && method != "GET") = true
    · have hc2 : data.truthy = true ∧ method ≠ "GET" := by simpa using hc
      obtain ⟨text, ht⟩ := hS hc2.1 hc2.2
      rw [if_pos hc, ht]; exact ⟨_, rfl⟩
    · rw [if_neg hc]; exact ⟨_, rfl⟩
  obtain ⟨options, ho⟩ := hopt
  obtain ⟨h1, h2, h3, h4, h5⟩ := requestOptions_ok P endpoint method data options ho
  refine ⟨options, makeRequest_fetched P endpoint method data w options ho, h1, h2, h3, h4, h5,
    ?_, ?_, ?_⟩
  · intro hg
    cases hb : options.body with
    | none => rfl
    | some text =>
      have := h4.1 (by rw [hb]; rfl)
      exact absurd hg this.2
  · intro hd
    rw [h4]
    rcases hd with ⟨props, rfl⟩ | ⟨items, rfl⟩ <;> simp [JSVal.truthy]
  · intro hd
    cases hb : options.body with
    | none => rfl
    | some text =>
      have := (h4.1 (by rw [hb]; rfl)).1
      rcases hd with rfl | rfl <;> simp [JSVal.truthy] at this

/-- C7, evaluated: a POST of the mapping with `channel` set to "general" to
`/add-list` carries its JSON text as the body. -/
theorem makeRequest_request_shape_witness :
    (∃ text, (respondingPlatform 200 "ok" none).stringify
        (.obj [("channel", .str "general")]) = .ok text)
    ∧ ∃ request, (makeRequest (respondingPlatform 200 "ok" none) "/add-list" "POST"
          (.obj [("channel", .str "general")]) samplePage).2.fetched
          = samplePage.fetched ++ [request]
      ∧ request.url = BASE_URL ++ "/add-list"
      ∧ request.method = "POST"
      ∧ request.headers = jsonHeaders
      ∧ (request.body.isSome = true
          ↔ ((JSVal.obj [("channel", .str "general")]).truthy = true ∧ "POST" ≠ "GET"))
      ∧ (∀ text, request.body = some text →
          (respondingPlatform 200 "ok" none).stringify (.obj [("channel", .str "general")])
            = .ok text)
      ∧ ("POST" = "GET" → request.body = none)
      ∧ ((∃ props, JSVal.obj [("channel", .str "general")] = .obj props)
            ∨ (∃ items, JSVal.obj [("channel", .str "general")] = .arr items) →
          (request.body.isSome = true ↔ "POST" ≠ "GET"))
      ∧ (JSVal.obj [("channel", .str "general")] = .null
            ∨ JSVal.obj [("channel", .str "general")] = .undefined → request.body = none) :=
  ⟨⟨_, rfl⟩,
    makeRequest_request_shape (respondingPlatform 200 "ok" none) "/add-list" "POST"
      (.obj [("channel", .str "general")]) samplePage (fun _ _ => ⟨_, rfl⟩)⟩

/-! ## Claims about the dispatch to the sink -/

theorem shown_className (el : Element) (data flag : JSVal) :
    (shown el data flag).className = if flag.truthy = true then "response error" else "response" := by
  unfold shown
  cases flag.truthy <;> rfl

/-- C2, the case the claim gets wrong: the body text `null` (here with status 404 on
`/get-list`) decodes to `null`; `getPeerList` then throws a `TypeError` when it reads
`result.error`, and `displayResponse` is never called, so the sink receives nothing. -/
theorem decoded_null_never_reaches_sink :
    (respondingPlatform 404 "null" (some .null)).fetch
        ⟨"http://localhost:8001/get-list", "GET", jsonHeaders, none⟩ = .ok ⟨404, .ok "null"⟩
    ∧ (respondingPlatform 404 "null" (some .null)).parse "null" = .ok .null
    ∧ (Operation.run (respondingPlatform 404 "null" (some .null)) .getPeerList samplePage).1
        = .error (typeError "Cannot read properties of null")
    ∧ (Operation.run (respondingPlatform 404 "null" (some .null)) .getPeerList
        samplePage).2.sinkCalls = [] :=
  ⟨rfl, rfl, rfl, rfl⟩

/-- C2, amended. For every binding and every request, if the transport does not fail
and the body text `t` decodes to a value `v` other than `null` (object, array or
other primitive; `JSON.parse` never yields `undefined`), then whatever the HTTP
status was the binding calls `displayResponse` exactly once, on its own sink, with
exactly `v` as data. -/
theorem binding_passes_decoded_value (P : Platform) (op : Operation) (w : World)
    (t : String) (v : JSVal) (hw : w.WellFormed)
    (hS : ∀ d, ∃ text, P.stringify d = .ok text)
    (hF : ∀ request, ∃ status, P.fetch request = .ok ⟨status, .ok t⟩)
    (hP : P.parse t = .ok v) (hv : v.isNullish = false) :
    (op.run P w).2.sinkCalls = w.sinkCalls ++ [SinkCall.mk op.sink v (errorFlag v)] :=
  ((dispatch_of_result P op w hw v
    (result_of_decoded P t v (delivers_of_fetch P t hS hF) hP)).2 hv).1

/-- C2 amended, evaluated: a 500 answer whose body is the JSON object with `error`
set to "boom" reaches the `channelResponse` sink of `joinChannel` unchanged. -/
theorem binding_passes_decoded_value_witness :
    samplePage.WellFormed
    ∧ (∀ d, ∃ text, (respondingPlatform 500 "\x7b\"error\":\"boom\"\x7d"
        (some (.obj [("error", .str "boom")]))).stringify d = .ok text)
    ∧ (∀ request, ∃ status, (respondingPlatform 500 "\x7b\"error\":\"boom\"\x7d"
        (some (.obj [("error", .str "boom")]))).fetch request
          = .ok ⟨status, .ok "\x7b\"error\":\"boom\"\x7d"⟩)
    ∧ (respondingPlatform 500 "\x7b\"error\":\"boom\"\x7d"
        (some (.obj [("error", .str "boom")]))).parse "\x7b\"error\":\"boom\"\x7d"
          = .ok (.obj [("error", .str "boom")])
    ∧ (JSVal.obj [("error", .str "boom")]).isNullish = false
    ∧ (Operation.run (respondingPlatform 500 "\x7b\"error\":\"boom\"\x7d"
        (some (.obj [("error", .str "boom")]))) .joinChannel samplePage).2.sinkCalls
        = samplePage.sinkCalls ++ [SinkCall.mk "channelResponse"
            (.obj [("error", .str "boom")]) (.str "boom")] :=
  ⟨samplePage_wellFormed, fun _ => ⟨_, rfl⟩, fun _ => ⟨500, rfl⟩, rfl, rfl,
    binding_passes_decoded_value _ .joinChannel samplePage _ _ samplePage_wellFormed
      (fun _ => ⟨_, rfl⟩) (fun _ => ⟨500, rfl⟩) rfl rfl⟩

/-- C3. For every body text `t` that fails to decode as JSON, `makeRequest` returns
exactly the mapping whose single field `raw` is `t`, unchanged, and every binding
passes exactly that mapping to its sink (with the error flag off). -/
theorem undecodable_body_kept_raw (P : Platform) (t : String) (e : JSError)
    (hP : P.parse t = .error e) :
    (∀ endpoint method data w, (transmit P endpoint method data w).1 = .ok t →
        (makeRequest P endpoint method data w).1 = .ok (.obj [("raw", .str t)]))
    ∧ (∀ (op : Operation) (w : World), w.WellFormed → P.Delivers t →
        (op.run P w).2.sinkCalls
          = w.sinkCalls ++ [SinkCall.mk op.sink (.obj [("raw", .str t)]) (.bool false)]) := by
  refine ⟨?_, ?_⟩
  · intro endpoint method data w ht
    rw [makeRequest_of_transmit_ok P endpoint method data w t ht, hP]
  · intro op w hw hD
    exact ((dispatch_of_result P op w hw _ (result_of_undecodable P t e hD hP)).2 rfl).1

/-- C3, evaluated: the text "<html>oops</html>" answered to `connectPeer`. -/
theorem undecodable_body_kept_raw_witness :
    (respondingPlatform 200 "<html>oops</html>" none).parse "<html>oops</html>"
        = .error ⟨"SyntaxError", "Unexpected token"⟩
    ∧ samplePage.WellFormed
    ∧ (respondingPlatform 200 "<html>oops</html>" none).Delivers "<html>oops</html>"
    ∧ (Operation.run (respondingPlatform 200 "<html>oops</html>" none) .connectPeer
        samplePage).2.sinkCalls
        = samplePage.sinkCalls ++ [SinkCall.mk "connectResponse"
            (.obj [("raw", .str "<html>oops</html>")]) (.bool false)] :=
  ⟨rfl, samplePage_wellFormed, respondingPlatform_delivers _ _ _,
    (undecodable_body_kept_raw (respondingPlatform 200 "<html>oops</html>" none)
      "<html>oops</html>" _ rfl).2 .connectPeer samplePage samplePage_wellFormed
      (respondingPlatform_delivers _ _ _)⟩

/-- C4, the case the claim gets wrong: a transport failure whose description is the
empty string.  The sink of `getPeerList` receives the mapping with `error` set to
"", but the region is styled `response`, not `response error`. -/
theorem empty_description_not_styled :
    (unreachablePlatform ⟨"TypeError", ""⟩).fetch
        ⟨"http://localhost:8001/get-list", "GET", jsonHeaders, none⟩
        = .error (.error ⟨"TypeError", ""⟩)
    ∧ (Operation.run (unreachablePlatform ⟨"TypeError", ""⟩) .getPeerList samplePage).2.sinkCalls
        = [SinkCall.mk "registerResponse" (.obj [("error", .str "")]) (.str "")]
    ∧ ((Operation.run (unreachablePlatform ⟨"TypeError", ""⟩) .getPeerList samplePage).2.dom
        "registerResponse").map Element.className = some "response" :=
  ⟨rfl, rfl, by decide⟩

/-- C4, amended. For every binding and every transport-level failure with
description `d`, the sink receives exactly the mapping with `error` set to `d`; the
sink region is styled as an error (class `response error`) when `d` is not empty,
and plainly (class `response`) when `d` is the empty string. -/
theorem transport_failure_dispatch (P : Platform) (op : Operation) (w : World) (e : JSError)
    (hw : w.WellFormed) (hF : P.FailsWith e) :
    (op.run P w).2.sinkCalls
        = w.sinkCalls ++ [SinkCall.mk op.sink (.obj [("error", .str e.message)]) (.str e.message)]
    ∧ ∃ el, (op.run P w).2.dom op.sink = some el
        ∧ el.className = (if e.message = "" then "response" else "response error")
        ∧ el.display = "block"
        ∧ el.textContent = (JSON.stringifyIndent2 (.obj [("error", .str e.message)])).getD "" := by
  obtain ⟨h1, ⟨el, _, h2⟩, _⟩ :=
    (dispatch_of_result P op w hw _ (result_of_fails P e hF)).2 rfl
  have hflag : errorFlag (.obj [("error", .str e.message)]) = .str e.message := rfl
  rw [hflag] at h1 h2
  refine ⟨h1, _, h2, ?_, rfl, rfl⟩
  rw [shown_className]
  by_cases hm : e.message = ""
  · simp [JSVal.truthy, hm]
  · simp [JSVal.truthy, hm]

/-- C4 amended, evaluated: `getMessages` with the service unreachable. -/
theorem transport_failure_dispatch_witness :
    samplePage.WellFormed
    ∧ (unreachablePlatform ⟨"TypeError", "Failed to fetch"⟩).FailsWith
        ⟨"TypeError", "Failed to fetch"⟩
    ∧ (Operation.run (unreachablePlatform ⟨"TypeError", "Failed to fetch"⟩) .getMessages
        samplePage).2.sinkCalls
        = samplePage.sinkCalls ++ [SinkCall.mk "broadcastResponse"
            (.obj [("error", .str "Failed to fetch")]) (.str "Failed to fetch")]
    ∧ ∃ el, (Operation.run (unreachablePlatform ⟨"TypeError", "Failed to fetch"⟩) .getMessages
          samplePage).2.dom "broadcastResponse" = some el
        ∧ el.className = (if "Failed to fetch" = "" then "response" else "response error")
        ∧ el.display = "block"
        ∧ el.textContent
          = (JSON.stringifyIndent2 (.obj [("error", .str "Failed to fetch")])).getD "" :=
  ⟨samplePage_wellFormed, unreachablePlatform_fails _,
    transport_failure_dispatch (unreachablePlatform ⟨"TypeError", "Failed to fetch"⟩)
      .getMessages samplePage ⟨"TypeError", "Failed to fetch"⟩ samplePage_wellFormed
      (unreachablePlatform_fails _)⟩

/-- C5. For every binding and every normalized result `r` it dispatches, the sink
region ends up with class `response error` if and only if `r` carries an `error`
field whose value is truthy, and with class `response` otherwise; in particular the
opaque result with the single field `raw` is never marked as an error.  (A binding
dispatches at most one result per call.) -/
theorem sink_error_styling (P : Platform) (op : Operation) (w : World) (hw : w.WellFormed) :
    (op.run P w).2.sinkCalls = w.sinkCalls
    ∨ ∃ r el, (op.run P w).2.sinkCalls = w.sinkCalls ++ [SinkCall.mk op.sink r (errorFlag r)]
        ∧ (op.run P w).2.dom op.sink = some el
        ∧ el.textContent = (JSON.stringifyIndent2 r).getD ""
        ∧ (el.className = "response error" ↔ r.hasTruthyField "error" = true)
        ∧ (el.className = "response" ↔ r.hasTruthyField "error" = false)
        ∧ (∀ t, r = .obj [("raw", .str t)] → el.className = "response") := by
  obtain ⟨endpoint, method, data, hcase⟩ := dispatch_spec P op w hw
  rcases hcase with ⟨e, _, hraise, _⟩ | ⟨r, _, h1, h2⟩
  · exact Or.inl hraise
  cases hn : r.isNullish with
  | true => exact Or.inl (h1 hn).1
  | false =>
    obtain ⟨hs, ⟨el, _, hd⟩, _⟩ := h2 hn
    have hc : (shown el r (errorFlag r)).className
        = if r.hasTruthyField "error" = true then "response error" else "response" := by
      rw [shown_className, errorFlag_truthy r hn]
    refine Or.inr ⟨r, _, hs, hd, rfl, ?_, ?_, ?_⟩
    · rw [hc]
      cases r.hasTruthyField "error" <;> decide
    · rw [hc]
      cases r.hasTruthyField "error" <;> decide
    · intro t ht
      rw [hc, ht]
      rfl

/-- C5, evaluated on scenario D: the plain-text body "Internal Server Error" with
status 500 on `/send-peer` is shown in `dmResponse` as the `raw` wrapper, with
class `response` (no error styling). -/
theorem sink_error_styling_witness :
    samplePage.WellFormed
    ∧ ((Operation.run (respondingPlatform 500 "Internal Server Error" none) .sendDirectMessage
          samplePage).2.sinkCalls = samplePage.sinkCalls
      ∨ ∃ r el, (Operation.run (respondingPlatform 500 "Internal Server Error" none)
            .sendDirectMessage samplePage).2.sinkCalls
            = samplePage.sinkCalls ++ [SinkCall.mk "dmResponse" r (errorFlag r)]
          ∧ (Operation.run (respondingPlatform 500 "Internal Server Error" none)
            .sendDirectMessage samplePage).2.dom "dmResponse" = some el
          ∧ el.textContent = (JSON.stringifyIndent2 r).getD ""
          ∧ (el.className = "response error" ↔ r.hasTruthyField "error" = true)
          ∧ (el.className = "response" ↔ r.hasTruthyField "error" = false)
          ∧ (∀ t, r = .obj [("raw", .str t)] → el.className = "response"))
    ∧ (Operation.run (respondingPlatform 500 "Internal Server Error" none) .sendDirectMessage
        samplePage).2.sinkCalls
        = [SinkCall.mk "dmResponse" (.obj [("raw", .str "Internal Server Error")]) (.bool false)]
    ∧ (Operation.run (respondingPlatform 500 "Internal Server Error" none) .sendDirectMessage
        samplePage).2.dom "dmResponse"
        = some ⟨"", "block", "response", "\x7b\n  \"raw\": \"Internal Server Error\"\n\x7d", ""⟩ :=
  ⟨samplePage_wellFormed,
    sink_error_styling (respondingPlatform 500 "Internal Server Error" none) .sendDirectMessage
      samplePage samplePage_wellFormed,
    rfl, by decide⟩

/-- C6, the cases the claim gets wrong.  A body `null` makes `registerPeer` throw at
`result.error`; a body whose `peers` field is the number 5 makes `getPeerList` throw
at `forEach`; a body whose `messages` array holds `null` makes `getMessages` throw in
the rendering callback. -/
theorem bindings_can_raise :
    (Operation.run (respondingPlatform 200 "null" (some .null)) .registerPeer samplePage).1
        = .error (typeError "Cannot read properties of null")
    ∧ (Operation.run (respondingPlatform 200 "\x7b\"peers\":5\x7d"
          (some (.obj [("peers", .num (.int 5))]))) .getPeerList samplePage).1
        = .error (typeError "forEach is not a function")
    ∧ (Operation.run (respondingPlatform 200 "\x7b\"messages\":[null]\x7d"
          (some (.obj [("messages", .arr [.null])]))) .getMessages samplePage).1
        = .error (typeError "Cannot read properties of null") :=
  ⟨rfl, rfl, rfl⟩

/-- C6, amended. Every binding runs to completion without raising, including its
error-flag read and its secondary pass, for every transport failure, for every body
text that does not decode, and for every decoded value that is not `null` and, for
`getPeerList` and `getMessages`, whose `peers` / `messages` field is missing or
falsy or is an array of entries other than `null` whose rendered fields convert to
text; on every other decoded value the binding raises. -/
theorem binding_completes (P : Platform) (op : Operation) (w : World) (hw : w.WellFormed) :
    (∀ e, P.FailsWith e → (op.run P w).1 = .ok ())
    ∧ (∀ t e, P.Delivers t → P.parse t = .error e → (op.run P w).1 = .ok ())
    ∧ (∀ t v, P.Delivers t → P.parse t = .ok v → op.completesOn v = true →
        (op.run P w).1 = .ok ())
    ∧ (∀ t v, P.Delivers t → P.parse t = .ok v → op.completesOn v = false →
        ∃ e, (op.run P w).1 = .error e) := by
  refine ⟨?_, ?_, ?_, ?_⟩
  · intro e hF
    refine ((dispatch_of_result P op w hw _ (result_of_fails P e hF)).2 rfl).2.2 ?_
    cases op <;> rfl
  · intro t e hD hP
    refine ((dispatch_of_result P op w hw _ (result_of_undecodable P t e hD hP)).2 rfl).2.2 ?_
    cases op <;> rfl
  · intro t v hD hP hc
    have hn : v.isNullish = false := by
      simp only [Operation.completesOn, Bool.and_eq_true, Bool.not_eq_true'] at hc
      exact hc.1
    exact ((dispatch_of_result P op w hw _ (result_of_decoded P t v hD hP)).2 hn).2.2 hc
  · intro t v hD hP hc
    exact run_fails_of_result P op w hw v (result_of_decoded P t v hD hP) hc

/-- C6 amended, evaluated on scenario B: the peer list with one entry renders and
`getPeerList` completes. -/
theorem binding_completes_witness :
    samplePage.WellFormed
    ∧ (respondingPlatform 200 scenarioBText (some scenarioB)).Delivers scenarioBText
    ∧ (respondingPlatform 200 scenarioBText (some scenarioB)).parse scenarioBText
        = .ok scenarioB
    ∧ Operation.completesOn .getPeerList scenarioB = true
    ∧ (Operation.run (respondingPlatform 200 scenarioBText (some scenarioB)) .getPeerList
        samplePage).1 = .ok () :=
  ⟨samplePage_wellFormed, respondingPlatform_delivers _ _ _, rfl, rfl,
    (binding_completes (respondingPlatform 200 scenarioBText (some scenarioB)) .getPeerList
      samplePage samplePage_wellFormed).2.2.1
      scenarioBText _ (respondingPlatform_delivers _ _ _) rfl rfl⟩

/-! ## Claims about the requests of the bindings -/

/-- The part of a binding after its request hands nothing to `fetch`. -/
theorem finish_fetched (op : Operation) (r : JSVal) (w1 : World) (hw : w1.WellFormed) :
    (finish op.sink op.secondary r w1).2.fetched = w1.fetched := by
  cases hn : r.isNullish with
  | true =>
    obtain ⟨e, he⟩ := finish_nullish op.sink op.secondary r w1 hn
    rw [he]
  | false =>
    obtain ⟨el, hel⟩ := hw.elem op.sink (sink_mem op)
    obtain ⟨pl, hpl⟩ := hw.elem "peerList" (by decide)
    obtain ⟨ml, hml⟩ := hw.elem "messageList" (by decide)
    obtain ⟨n1, n2⟩ := sink_ne_lists op
    have hp : ((afterDisplay w1 op.sink r el).dom "peerList").isSome = true := by
      simp only [afterDisplay, if_neg (Ne.symm n1), hpl, Option.isSome_some]
    have hq : ((afterDisplay w1 op.sink r el).dom "messageList").isSome = true := by
      simp only [afterDisplay, if_neg (Ne.symm n2), hml, Option.isSome_some]
    obtain ⟨_, fb, _⟩ := secondary_frame op r (afterDisplay w1 op.sink r el) hp hq
    rw [finish_run op.sink op.secondary r w1 el hn hel, fb]
    rfl

/-- The requests a binding hands to `fetch` are those of its `makeRequest` call. -/
theorem bind_finish_fetched (P : Platform) (op : Operation) (endpoint method : String)
    (data : JSVal) (w : World) (hw : w.WellFormed) :
    ((makeRequest P endpoint method data >>= finish op.sink op.secondary) w).2.fetched
      = (makeRequest P endpoint method data w).2.fetched := by
  have hd := makeRequest_dom P endpoint method data w
  rw [Eff.bind_run]
  generalize makeRequest P endpoint method data w = out at hd ⊢
  rcases out with ⟨x, w1⟩
  cases x with
  | error e => rfl
  | ok r =>
    simp only [] at hd ⊢
    apply finish_fetched
    intro id hid
    rw [hd]
    exact hw id hid

/-- C8, evaluated where the code departs from the claim: with "general" in the
broadcast-channel field, `getMessages` calls `makeRequest` with `/get-messages`,
"GET" and the mapping with `channel` set to "general", and the one request this hands
to `fetch` is a GET with no body: the mapping it built is not sent. -/
theorem getMessages_sends_no_body :
    (samplePage.dom "broadcastChannel").map Element.value = some "general"
    ∧ (getMessages (respondingPlatform 200 "ok" none) samplePage).2.requested
        = [RequestCall.mk "/get-messages" "GET" (.obj [("channel", .str "general")])]
    ∧ (getMessages (respondingPlatform 200 "ok" none) samplePage).2.fetched
        = [⟨"http://localhost:8001/get-messages", "GET", jsonHeaders, none⟩]
    ∧ (broadcastMessage (respondingPlatform 200 "ok" none) samplePage).2.fetched
        = [⟨"http://localhost:8001/broadcast-peer", "POST", jsonHeaders,
            some "\x7b\"peer_id\":\"\",\"channel\":\"general\",\"message\":\"\"\x7d"⟩] :=
  ⟨by decide, rfl, by decide, by decide⟩

/-- C9. On every tick, whatever the state of the page, the polling callback starts
`getPeerList` exactly once when `innerHTML` of the `peerList` region is not empty and
starts nothing when it is empty; it never starts more than one operation and never
one other than `getPeerList` (on a page without a `peerList` element the callback
throws and starts nothing). -/
theorem pollingCallback_spec (P : Platform) (w : World) :
    (∀ el, w.dom "peerList" = some el → el.innerHTML ≠ "" →
        pollingCallback w = .ok [.getPeerList] ∧ tick P w = (getPeerList P w).2)
    ∧ (∀ el, w.dom "peerList" = some el → el.innerHTML = "" →
        pollingCallback w = .ok [] ∧ tick P w = w)
    ∧ (∀ started, pollingCallback w = .ok started →
        started.count .getPeerList ≤ 1 ∧ started.length ≤ 1
          ∧ ∀ op ∈ started, op = .getPeerList)
    ∧ (∀ e, pollingCallback w = .error e → tick P w = w) := by
  refine ⟨?_, ?_, ?_, fun e he => by simp only [tick, he]⟩
  · intro el hel hne
    have h : pollingCallback w = .ok [.getPeerList] := by
      simp [pollingCallback, hel, hne]
    exact ⟨h, by simp only [tick, h, List.foldl, Operation.run]⟩
  · intro el hel he
    have h : pollingCallback w = .ok [] := by
      simp [pollingCallback, hel, he]
    exact ⟨h, by simp only [tick, h, List.foldl]⟩
  · intro started hs
    unfold pollingCallback at hs
    cases hd : w.dom "peerList" with
    | none => rw [hd] at hs; cases hs
    | some el =>
      rw [hd] at hs
      simp only [] at hs
      by_cases hne : (el.innerHTML != "") = true
      · rw [if_pos hne] at hs
        cases hs
        exact ⟨by decide, by decide, by simp⟩
      · rw [if_neg hne] at hs
        cases hs
        exact ⟨by decide, by decide, by simp⟩

/-- C9, evaluated: a page whose peer list was rendered starts `getPeerList` once. -/
theorem pollingCallback_spec_witness :
    (pageWithList "<h3>Active Peers:</h3>").dom "peerList"
        = some ⟨"", "none", "response", "", "<h3>Active Peers:</h3>"⟩
    ∧ "<h3>Active Peers:</h3>" ≠ ""
    ∧ pollingCallback (pageWithList "<h3>Active Peers:</h3>") = .ok [.getPeerList]
    ∧ tick (respondingPlatform 200 "ok" none) (pageWithList "<h3>Active Peers:</h3>")
        = (getPeerList (respondingPlatform 200 "ok" none)
            (pageWithList "<h3>Active Peers:</h3>")).2 :=
  ⟨rfl, by decide,
    (pollingCallback_spec (respondingPlatform 200 "ok" none)
      (pageWithList "<h3>Active Peers:</h3>")).1 _ rfl (by decide)⟩

/-! ## `parseInt` on runs of decimal digits -/

theorem digit_bounds (c : Char) (h : isDecimalDigit c = true) : 48 ≤ c.toNat ∧ c.toNat ≤ 57 := by
  simpa [isDecimalDigit] using h

theorem digit_not_space (c : Char) (h : isDecimalDigit c = true) : isStrWhiteSpace c = false := by
  obtain ⟨h1, h2⟩ := digit_bounds c h
  simp only [isStrWhiteSpace, Bool.or_eq_false_iff, decide_eq_false_iff_not, List.mem_cons,
    List.mem_singleton, Bool.and_eq_false_imp, decide_eq_true_eq, not_or, not_le, List.not_mem_nil,
    or_false]
  omega

theorem digit_ne (c d : Char) (h : isDecimalDigit c = true) (hd : d.toNat < 48 ∨ 57 < d.toNat) :
    (c == d) = false := by
  obtain ⟨h1, h2⟩ := digit_bounds c h
  rw [beq_eq_false_iff_ne]
  intro he
  subst he
  omega

theorem digitValue_digit (c : Char) (h : isDecimalDigit c = true) :
    digitValue 10 c = some (c.toNat - 48) := by
  obtain ⟨h1, h2⟩ := digit_bounds c h
  have hb : (decide (48 ≤ c.toNat) && decide (c.toNat ≤ 57)) = true := by simp [h1, h2]
  simp only [digitValue, hb, if_true]
  rw [if_pos (by omega)]

theorem takeDigits_digits (ds : List Char) (hd : ∀ c ∈ ds, isDecimalDigit c = true) :
    takeDigits 10 ds = ds.map (fun c => c.toNat - 48) := by
  induction ds with
  | nil => rfl
  | cons c cs ih =>
    simp only [takeDigits, digitValue_digit c (hd c (List.mem_cons_self _ _)), List.map_cons]
    rw [ih (fun x hx => hd x (List.mem_cons_of_mem _ hx))]

theorem decimalValue_bound (ds : List Char) (hd : ∀ c ∈ ds, isDecimalDigit c = true) :
    ∀ acc : Nat,
      ds.foldl (fun acc c => acc * 10 + (c.toNat - 48)) acc + 1 ≤ (acc + 1) * 10 ^ ds.length := by
  induction ds with
  | nil => intro acc; simp
  | cons c cs ih =>
    intro acc
    obtain ⟨h1, h2⟩ := digit_bounds c (hd c (List.mem_cons_self _ _))
    have := ih (fun x hx => hd x (List.mem_cons_of_mem _ hx)) (acc * 10 + (c.toNat - 48))
    simp only [List.foldl_cons, List.length_cons]
    calc List.foldl (fun acc c => acc * 10 + (c.toNat - 48)) (acc * 10 + (c.toNat - 48)) cs + 1
        ≤ (acc * 10 + (c.toNat - 48) + 1) * 10 ^ cs.length := this
      _ ≤ ((acc + 1) * 10) * 10 ^ cs.length := Nat.mul_le_mul_right _ (by omega)
      _ = (acc + 1) * 10 ^ (cs.length + 1) := by rw [Nat.pow_succ]; ring

/-- A run of at most 15 decimal digits denotes a number below `2^53`. -/
theorem decimalValue_small (ds : List Char) (hd : ∀ c ∈ ds, isDecimalDigit c = true)
    (hlen : ds.length ≤ 15) : decimalValue ds < 2 ^ 53 := by
  have h := decimalValue_bound ds hd 0
  have h2 : 10 ^ ds.length ≤ 10 ^ 15 := Nat.pow_le_pow_right (by decide) hlen
  have h3 : (10 : Nat) ^ 15 < 2 ^ 53 := by norm_num
  unfold decimalValue
  omega

/-- `parseInt` of a run of 1 to 15 decimal digits is the number the run denotes. -/
theorem parseInt_decimal (ds : List Char) (hne : ds ≠ []) (hlen : ds.length ≤ 15)
    (hd : ∀ c ∈ ds, isDecimalDigit c = true) :
    parseInt (String.mk ds) = .int (decimalValue ds) := by
  have hsmall := decimalValue_small ds hd hlen
  cases ds with
  | nil => exact absurd rfl hne
  | cons d rest =>
    have hdd := hd d (List.mem_cons_self _ _)
    have h1 : (String.mk (d :: rest)).toList.dropWhile isStrWhiteSpace = d :: rest := by
      show (d :: rest).dropWhile isStrWhiteSpace = d :: rest
      rw [List.dropWhile_cons_of_neg (by simp [digit_not_space d hdd])]
    have hminus : (d == '-') = false := digit_ne d '-' hdd (Or.inl (by decide))
    have hplus : (d == '+') = false := digit_ne d '+' hdd (Or.inl (by decide))
    have hhex : ((d :: rest).take 2 == ['0', 'x'] || (d :: rest).take 2 == ['0', 'X']) = false := by
      cases rest with
      | nil => simp
      | cons e rest2 =>
        have hee := hd e (List.mem_cons_of_mem _ (List.mem_cons_self _ _))
        have hx : (e == 'x') = false := digit_ne e 'x' hee (Or.inr (by decide))
        have hX : (e == 'X') = false := digit_ne e 'X' hee (Or.inr (by decide))
        have e1 : ([d, e] == ['0', 'x']) = false := by
          rw [beq_eq_false_iff_ne]
          intro hc
          have := (List.cons.inj (List.cons.inj hc).2).1
          rw [beq_eq_false_iff_ne] at hx
          exact hx this
        have e2 : ([d, e] == ['0', 'X']) = false := by
          rw [beq_eq_false_iff_ne]
          intro hc
          have := (List.cons.inj (List.cons.inj hc).2).1
          rw [beq_eq_false_iff_ne] at hX
          exact hX this
        simp only [List.take_succ_cons, List.take_zero, e1, e2, Bool.or_self]
    have htd := takeDigits_digits (d :: rest) hd
    have hm2 : (some d == some '-') = false := by
      rw [beq_eq_false_iff_ne] at hminus ⊢
      exact fun h => hminus (Option.some.inj h)
    have hp2 : (some d == some '+') = false := by
      rw [beq_eq_false_iff_ne] at hplus ⊢
      exact fun h => hplus (Option.some.inj h)
    have hval : List.foldl (fun x y => x * 10 + (y.toNat - 48)) (0 * 10 + (d.toNat - 48)) rest
        = decimalValue (d :: rest) := by
      simp only [decimalValue, List.foldl_cons]
    unfold parseInt
    simp only [h1, List.head?_cons, hm2, hp2, Bool.or_self, Bool.false_eq_true, if_false, hhex,
      htd, List.map_cons]
    simp only [List.foldl_cons, List.foldl_map, hval, JSNum.ofMathInt, roundToDouble,
      if_pos hsmall, Bool.false_eq_true, if_false]

theorem nondigit_value (c : Char) (h : isDecimalDigit c = false) : digitValue 10 c = none := by
  have hb : (decide (48 ≤ c.toNat) && decide (c.toNat ≤ 57)) = false := by
    simpa [isDecimalDigit] using h
  simp only [digitValue, hb, Bool.false_eq_true, if_false]
  split_ifs <;> first | rfl | omega | (simp_all; omega)

/-- `parseInt` of a text without any decimal digit, such as the empty text, is `NaN`. -/
theorem parseInt_no_digit (s : String) (h : ∀ c ∈ s.toList, isDecimalDigit c = false) :
    parseInt s = .nan := by
  have key : ∀ cs : List Char, (∀ c ∈ cs, isDecimalDigit c = false) →
      (cs.take 2 == ['0', 'x'] || cs.take 2 == ['0', 'X']) = false ∧ takeDigits 10 cs = [] := by
    intro cs hcs
    cases cs with
    | nil => exact ⟨by decide, rfl⟩
    | cons c rest =>
      have hc := hcs c (List.mem_cons_self _ _)
      have hne : c ≠ '0' := by
        intro he
        subst he
        exact absurd hc (by decide)
      refine ⟨?_, by simp only [takeDigits, nondigit_value c hc]⟩
      have e1 : ∀ y : Char, ((c :: rest).take 2 == ['0', y]) = false := by
        intro y
        rw [beq_eq_false_iff_ne]
        intro hh
        cases rest with
        | nil => simp at hh
        | cons e r2 =>
          simp only [List.take_succ_cons, List.take_zero] at hh
          exact hne (List.cons.inj hh).1
      rw [e1, e1]
      rfl
  have h1 : ∀ c ∈ s.toList.dropWhile isStrWhiteSpace, isDecimalDigit c = false :=
    fun c hc => h c ((List.dropWhile_suffix _).subset hc)
  have h2 : ∀ c ∈ (s.toList.dropWhile isStrWhiteSpace).tail, isDecimalDigit c = false :=
    fun c hc => h1 c (List.mem_of_mem_tail hc)
  unfold parseInt
  simp only []
  by_cases hsign : ((s.toList.dropWhile isStrWhiteSpace).head? == some '-'
      || (s.toList.dropWhile isStrWhiteSpace).head? == some '+') = true
  · obtain ⟨a, b⟩ := key _ h2
    simp only [hsign, if_true, a, Bool.false_eq_true, if_false, b]
  · obtain ⟨a, b⟩ := key _ h1
    simp only [hsign, if_false, a, Bool.false_eq_true, b]

/-- The part of a binding after its request dispatches a result that is not `null`
or `undefined` exactly once, to its sink. -/
theorem finish_sinkCalls (op : Operation) (r : JSVal) (w1 : World) (hw : w1.WellFormed)
    (hn : r.isNullish = false) :
    (finish op.sink op.secondary r w1).2.sinkCalls
      = w1.sinkCalls ++ [SinkCall.mk op.sink r (errorFlag r)] := by
  obtain ⟨el, hel⟩ := hw.elem op.sink (sink_mem op)
  obtain ⟨pl, hpl⟩ := hw.elem "peerList" (by decide)
  obtain ⟨ml, hml⟩ := hw.elem "messageList" (by decide)
  obtain ⟨n1, n2⟩ := sink_ne_lists op
  have hp : ((afterDisplay w1 op.sink r el).dom "peerList").isSome = true := by
    simp only [afterDisplay, if_neg (Ne.symm n1), hpl, Option.isSome_some]
  have hq : ((afterDisplay w1 op.sink r el).dom "messageList").isSome = true := by
    simp only [afterDisplay, if_neg (Ne.symm n2), hml, Option.isSome_some]
  obtain ⟨fa, _, _⟩ := secondary_frame op r (afterDisplay w1 op.sink r el) hp hq
  rw [finish_run op.sink op.secondary r w1 el hn hel, fa]
  rfl

/-- C10, the case the claim gets wrong: with the port field left empty, the body
`registerPeer` sends has `port` set to `null` (the encoding of `NaN`), not an integer. -/
theorem registerPeer_empty_port :
    ((pageWithPort "").dom "peerPort").map Element.value = some ""
    ∧ parseInt "" = .nan
    ∧ (registerPeer (respondingPlatform 200 "ok" none) (pageWithPort "")).2.fetched
        = [⟨"http://localhost:8001/submit-info", "POST", jsonHeaders,
            some "\x7b\"peer_id\":\"p1\",\"ip\":\"127.0.0.1\",\"port\":null\x7d"⟩] :=
  ⟨by decide, by decide, by decide⟩

/-- C10, amended. For every peer_id text, ip text and port text in the form,
`registerPeer` issues exactly one request, a POST to `BASE_URL` followed by
`/submit-info` whose body is the JSON encoding of the mapping with exactly the fields
`peer_id` (string), `ip` (string) and `port`, in that order, where `port` is
`parseInt` of the port text: the integer the text denotes when it is a run of 1 to
15 decimal digits, and `NaN`, encoded as `null`, when it holds no decimal digit (as
the empty text does); a result of the request other than `null` is dispatched to the
`registerResponse` sink. -/
theorem registerPeer_request (P : Platform) (w : World) (a b c : Element) (hw : w.WellFormed)
    (ha : w.dom "peerId" = some a) (hb : w.dom "peerIp" = some b)
    (hc : w.dom "peerPort" = some c) :
    (∀ text, P.stringify (registerPayload a.value b.value c.value) = .ok text →
        (registerPeer P w).2.fetched
          = w.fetched ++ [⟨BASE_URL ++ "/submit-info", "POST", jsonHeaders, some text⟩])
    ∧ (∀ ds, c.value = String.mk ds → ds ≠ [] → ds.length ≤ 15 →
        (∀ ch ∈ ds, isDecimalDigit ch = true) → parseInt c.value = .int (decimalValue ds))
    ∧ ((∀ ch ∈ c.value.toList, isDecimalDigit ch = false) →
        parseInt c.value = .nan ∧ JSON.stringify (.num (parseInt c.value)) = some "null")
    ∧ (∀ r, (makeRequest P "/submit-info" "POST"
          (registerPayload a.value b.value c.value) w).1 = .ok r → r.isNullish = false →
        (registerPeer P w).2.sinkCalls
          = w.sinkCalls ++ [SinkCall.mk "registerResponse" r (errorFlag r)]) := by
  obtain ⟨a1, b1, c1, ha1, hb1, hc1, heq⟩ := registerPeer_eq P w hw
  rw [ha] at ha1
  rw [hb] at hb1
  rw [hc] at hc1
  cases ha1
  cases hb1
  cases hc1
  have heq2 : registerPeer P w
      = (makeRequest P "/submit-info" "POST" (registerPayload a.value b.value c.value)
        >>= finish (Operation.sink .registerPeer) (Operation.secondary .registerPeer)) w := heq
  have hw1 : (makeRequest P "/submit-info" "POST"
      (registerPayload a.value b.value c.value) w).2.WellFormed := by
    intro id hid
    rw [makeRequest_dom]
    exact hw id hid
  have hs1 := makeRequest_sinkCalls P "/submit-info" "POST"
    (registerPayload a.value b.value c.value) w
  refine ⟨?_, ?_, ?_, ?_⟩
  · intro text ht
    rw [heq2, bind_finish_fetched P .registerPeer "/submit-info" "POST"
      (registerPayload a.value b.value c.value) w hw]
    apply makeRequest_fetched
    unfold requestOptions
    rw [if_pos (by rfl), ht]
    rfl
  · intro ds hv hne hlen hd
    rw [hv]
    exact parseInt_decimal ds hne hlen hd
  · intro hd
    have hnan := parseInt_no_digit c.value hd
    exact ⟨hnan, by rw [hnan]; rfl⟩
  · intro r hr hn
    have key : registerPeer P w
        = finish (Operation.sink .registerPeer) (Operation.secondary .registerPeer) r
            (makeRequest P "/submit-info" "POST"
              (registerPayload a.value b.value c.value) w).2 := by
      rw [heq2, Eff.bind_run]
      generalize makeRequest P "/submit-info" "POST"
        (registerPayload a.value b.value c.value) w = out at hr
      rcases out with ⟨x, w1⟩
      simp only [] at hr
      subst hr
      rfl
    rw [key, finish_sinkCalls .registerPeer r _ hw1 hn, hs1]
    rfl

/-- C10 amended, evaluated on scenario A: peer `p1` at `127.0.0.1`, port 5000. -/
theorem registerPeer_request_witness :
    samplePage.WellFormed
    ∧ samplePage.dom "peerId" = some (field "p1")
    ∧ samplePage.dom "peerIp" = some (field "127.0.0.1")
    ∧ samplePage.dom "peerPort" = some (field "5000")
    ∧ (respondingPlatform 200 "ok" none).stringify (registerPayload "p1" "127.0.0.1" "5000")
        = .ok "\x7b\"peer_id\":\"p1\",\"ip\":\"127.0.0.1\",\"port\":5000\x7d"
    ∧ (registerPeer (respondingPlatform 200 "ok" none) samplePage).2.fetched
        = samplePage.fetched ++ [⟨BASE_URL ++ "/submit-info", "POST", jsonHeaders,
            some "\x7b\"peer_id\":\"p1\",\"ip\":\"127.0.0.1\",\"port\":5000\x7d"⟩] :=
  ⟨samplePage_wellFormed, rfl, rfl, rfl, rfl,
    (registerPeer_request (respondingPlatform 200 "ok" none) samplePage (field "p1")
      (field "127.0.0.1") (field "5000") samplePage_wellFormed rfl rfl rfl).1 _ rfl⟩

/-- Above `2^53` the port is the nearest double: 9007199254740993 is sent as
9007199254740992 and a run of twenty-two digits in exponent form; a run long enough
to overflow parses to `Infinity`, which is sent as `null`. -/
theorem parseInt_rounds :
    parseInt "9007199254740993" = .int 9007199254740992
    ∧ JSON.stringify (.num (parseInt "1234567890123456789012"))
        = some "1.2345678901234568e+21"
    ∧ JSON.stringify (.num (.inf false)) = some "null" :=
  ⟨by decide, by decide, by decide⟩

end ChatClient
